import Mathlib

set_option maxRecDepth 8000

/-!
AutoUnzipService: a shallow embedding of the directory-watch and extraction pipeline.

The definitions below follow `src/AutoUnzipService.cpp`.  A `std::string` is a
Lean `String` read as a sequence of `char`s, the `passwordAttempts` map is an
association list, and everything the program obtains from the operating system
(file opens, message boxes, the password dialog, the archiver process, the wide
character conversion and `std::filesystem::path::filename`) is supplied by an
environment `Env` whose answers are indexed by the number of earlier calls.
Every externally visible action is appended to the `trace` of the state.
-/

namespace AutoUnzip

/-! ## Constants -/

/-- Line 29: `#define MAX_PASSWORD_ATTEMPTS 3`. -/
def MAX_PASSWORD_ATTEMPTS : Int := 3

/-- The value of `FILE_ACTION_ADDED` in the Windows headers. -/
def FILE_ACTION_ADDED : Nat := 1

/-- The value of `FILE_ACTION_RENAMED_NEW_NAME` in the Windows headers. -/
def FILE_ACTION_RENAMED_NEW_NAME : Nat := 5

/-- The value of `WAIT_OBJECT_0` in the Windows headers. -/
def WAIT_OBJECT_0 : Nat := 0

/-- The value of `WAIT_TIMEOUT` in the Windows headers. -/
def WAIT_TIMEOUT : Nat := 258

/-- The value of `IDYES` in the Windows headers. -/
def IDYES : Nat := 6

/-- Lines 45-62: the `supportedExtensions` table, in source order. -/
def supportedExtensions : List String :=
  [".7z", ".zip", ".rar", ".tar", ".gz", ".bz2", ".xz",
   ".iso", ".img", ".dmg", ".vhd", ".vmdk",
   ".cab", ".arj", ".lzh", ".ace", ".uue", ".z",
   ".taz", ".tbz", ".tbz2", ".txz", ".tlz",
   ".war", ".jar", ".ear", ".sar", ".apk", ".ipa",
   ".001", ".002", ".003", ".part1", ".part2",
   ".lzma", ".zipx", ".par", ".par2", ".deb", ".rpm",
   ".bak", ".backup", ".arc"]

/-- Lines 64-66: the `conventionalExtensions` table. -/
def conventionalExtensions : List String :=
  [".zip", ".rar", ".7z", ".tar", ".gz", ".bz2"]

/-! ## ArchiveClassifier (lines 268-293) -/

/-- The C function `tolower` in the default "C" locale: only `A`..`Z` change. -/
def tolower (c : Char) : Char :=
  if 65 ≤ c.toNat ∧ c.toNat ≤ 90 then Char.ofNat (c.toNat + 32) else c

/-- The `std::transform(..., ::tolower)` pass of lines 270 and 285. -/
def lowerString (filename : String) : String :=
  String.mk (filename.data.map tolower)

/-- The member `std::string::ends_with`: the argument is not longer than the
string and the last characters of the string equal it. -/
def ends_with (s ext : String) : Bool :=
  decide (ext.data.length ≤ s.data.length) &&
    (s.data.drop (s.data.length - ext.data.length) == ext.data)

/-- The class `\d` of the regular expression: the ten decimal digits. -/
def isDigit (c : Char) : Bool :=
  decide (48 ≤ c.toNat) && decide (c.toNat ≤ 57)

/-- An attempt to match `\.(\d{3})$` starting at the head of the remaining
input: a dot, three digits, and then the end of the input. -/
def matchNumberedAt : List Char → Bool
  | [c0, c1, c2, c3] => (c0 == '.') && isDigit c1 && isDigit c2 && isDigit c3
  | _ => false

/-- The call `std::regex_search(lowerFilename, numberedPattern)` of line 280:
the pattern is tried at every start position, left to right. -/
def regexSearchNumbered : List Char → Bool
  | [] => false
  | c :: cs => matchNumberedAt (c :: cs) || regexSearchNumbered cs

/-- Lines 268-281. -/
def IsArchiveFile (filename : String) : Bool :=
  let lowerFilename := lowerString filename
  if supportedExtensions.any (fun ext => ends_with lowerFilename ext) then true
  else regexSearchNumbered lowerFilename.data

/-- Lines 283-293. -/
def IsConventionalArchive (filename : String) : Bool :=
  let lowerFilename := lowerString filename
  if conventionalExtensions.any (fun ext => ends_with lowerFilename ext) then true
  else false

/-! ## State, environment and trace -/

/-- The `std::map<std::string, int> passwordAttempts` of line 42. -/
abbrev AttemptMap := List (String × Int)

/-- The member `find`: the value stored under a key, if any. -/
def AttemptMap.find (m : AttemptMap) (k : String) : Option Int :=
  match m with
  | [] => none
  | (k1, v) :: rest => if k1 = k then some v else AttemptMap.find rest k

/-- The member `erase(key)`. -/
def AttemptMap.erase (m : AttemptMap) (k : String) : AttemptMap :=
  m.filter (fun e => decide (e.1 ≠ k))

/-- The statement `m[k] = v`. -/
def AttemptMap.assign (m : AttemptMap) (k : String) (v : Int) : AttemptMap :=
  (k, v) :: AttemptMap.erase m k

/-- The side effect of evaluating `m[k]`: a missing key is inserted with `0`. -/
def AttemptMap.subscript (m : AttemptMap) (k : String) : AttemptMap :=
  match AttemptMap.find m k with
  | some _ => m
  | none => (k, 0) :: m

/-- The value `m[k]` reads: the stored count, `0` for a missing key. -/
def AttemptMap.count (m : AttemptMap) (k : String) : Int :=
  (AttemptMap.find m k).getD 0

/-- Lines 325-330. -/
structure PasswordDialogData where
  filename : String := ""
  password : String := ""
  twoFactorCode : String := ""
  cancelled : Bool := false
deriving DecidableEq, Repr

/-- One record seen by the walk of `ProcessDirectoryChanges`: its byte offset,
its `Action`, and its file name when the walk read it. -/
structure Visit where
  pos : Nat
  action : Nat
  fileName : Option (List Nat)
deriving DecidableEq, Repr

/-- The externally visible actions of the program. -/
inductive Event where
  | openAttempt (filePath : String)
  | log (message : String)
  | confirmBox (message : String)
  | errorBox (message : String)
  | passwordDialog (filename : String)
  | notify (title message : String)
  | createProcess (command : String)
  | terminateProcess
  | processArchiveFile (filePath filename : String)
deriving DecidableEq, Repr

/-- What the user does with the password dialog (lines 545-566), or `failed`
when `DialogBoxParam` returns without the dialog procedure having run. -/
inductive DialogAction where
  | ok (passwordText twoFactorText : String)
  | skip
  | cancel
  | failed
deriving DecidableEq, Repr

/-- The behaviour of one archiver process: whether `CreateProcessA` started
it, what `WaitForSingleObject` returns, and the `DWORD` that
`GetExitCodeProcess` stores for the process. -/
structure ToolOutcome where
  started : Bool
  waitResult : Nat
  exitCode : Nat
deriving DecidableEq, Repr

/-- The operating system and the user. -/
structure Env where
  /-- Whether the n-th `CreateFileA` of `WaitForFileStable` yields a handle. -/
  openShared : Nat → String → Bool
  /-- The button of the n-th confirmation `MessageBoxA`. -/
  confirm : Nat → Nat
  /-- The user action in the n-th password dialog. -/
  dialog : Nat → DialogAction
  /-- The n-th archiver process. -/
  tool : Nat → ToolOutcome
  /-- The function `WideCharToMultiByte(CP_UTF8, ...)` on a non-empty input. -/
  wideToUtf8 : List Nat → String
  /-- The function `std::filesystem::path(p).filename().string()`. -/
  pathFilename : String → String

/-- The fields of `AutoUnzipService` the pipeline uses, the number of calls
made so far to each part of the environment, and the record of what happened. -/
structure State where
  peazipPath : String
  downloadsPath : String
  passwordAttempts : AttemptMap
  opens : Nat
  confirms : Nat
  dialogs : Nat
  spawns : Nat
  trace : List Event
deriving DecidableEq, Repr

/-- Lines 441-459: one line for the log file. -/
def LogEvent (s : State) (message : String) : State :=
  { s with trace := s.trace ++ [Event.log message] }

/-- Lines 432-439: a balloon notification. -/
def ShowTrayNotification (s : State) (title message : String) : State :=
  { s with trace := s.trace ++ [Event.notify title message] }

/-! ## FileStabilityProber (lines 253-266) -/

/-- The `for` loop of lines 255-264 with `n` iterations left. The one-second
sleep is a pure delay and leaves no mark on the state. -/
def WaitForFileStable.loop (env : Env) (filePath : String) : Nat → State → Bool × State
  | 0, s => (false, s)
  | n + 1, s =>
    let hFileValid := env.openShared s.opens filePath
    let s1 := { s with opens := s.opens + 1, trace := s.trace ++ [Event.openAttempt filePath] }
    if hFileValid then (true, s1)
    else WaitForFileStable.loop env filePath n s1

/-- Lines 253-266. -/
def WaitForFileStable (env : Env) (s : State) (filePath : String) : Bool × State :=
  WaitForFileStable.loop env filePath 10 s

/-! ## ExtractionInvoker (lines 359-430) -/

/-- Lines 370-381: the command line handed to `CreateProcessA`. -/
def ExtractArchive.command (peazipPath archivePath password twoFactorCode : String) : String :=
  let command := "\"" ++ peazipPath ++ "\" -ext2folder -o+ "
  let command := if password ≠ "" then command ++ ("-pwd \"" ++ password ++ "\" ") else command
  let command := if twoFactorCode ≠ "" then command ++ ("-2fa \"" ++ twoFactorCode ++ "\" ") else command
  command ++ ("\"" ++ archivePath ++ "\"")

/-- Lines 359-430. The local `outputDir` of line 367 is computed and never
used, so it does not appear. -/
def ExtractArchive (env : Env) (s : State) (archivePath password twoFactorCode : String) :
    Bool × State :=
  if s.peazipPath = "" then
    let s := ShowTrayNotification s "Auto Unzip - Error" "PeaZip not found. Please install PeaZip."
    let s := LogEvent s "PeaZip not found at expected locations"
    (false, s)
  else
    let command := ExtractArchive.command s.peazipPath archivePath password twoFactorCode
    let s := LogEvent s ("Executing: " ++ command)
    let outcome := env.tool s.spawns
    let s := { s with spawns := s.spawns + 1, trace := s.trace ++ [Event.createProcess command] }
    if outcome.started then
      let waitResult := outcome.waitResult
      let r : Nat × State :=
        if waitResult = WAIT_OBJECT_0 then (outcome.exitCode, s)
        else if waitResult = WAIT_TIMEOUT then
          let s := { s with trace := s.trace ++ [Event.terminateProcess] }
          (1, LogEvent s ("Extraction timed out for: " ++ archivePath))
        else (1, s)
      let exitCode := r.1
      let s := r.2
      if exitCode = 0 then
        let filename := env.pathFilename archivePath
        let s := ShowTrayNotification s "Auto Unzip - Success" ("Extracted: " ++ filename)
        let s := LogEvent s ("Successfully extracted: " ++ filename)
        (true, { s with passwordAttempts := AttemptMap.erase s.passwordAttempts filename })
      else
        (false, LogEvent s ("Extraction failed with exit code: " ++ toString exitCode))
    else
      (false, LogEvent s "Failed to start PeaZip process")

/-! ## PasswordAttemptTracker and the password dialog (lines 332-357, 531-570) -/

/-- The call `GetWindowTextA(h, buf, size)` followed by the assignment of the
buffer to a `std::string`: at most `size - 1` characters are kept. -/
def GetWindowTextA (text : String) (size : Nat) : String :=
  String.mk (text.data.take (size - 1))

/-- Lines 545-566: what the dialog procedure writes into `data` before the
dialog ends. -/
def PasswordDialogProc (data : PasswordDialogData) : DialogAction → PasswordDialogData
  | DialogAction.ok passwordText twoFactorText =>
    { data with password := GetWindowTextA passwordText 256,
                twoFactorCode := GetWindowTextA twoFactorText 64,
                cancelled := false }
  | DialogAction.skip => { data with cancelled := true }
  | DialogAction.cancel => { data with cancelled := true }
  | DialogAction.failed => data

/-- Lines 348-356: the modal dialog is run in state `s` and `data` comes back. -/
def DialogBoxParam (env : Env) (s : State) (data : PasswordDialogData) :
    PasswordDialogData × State :=
  (PasswordDialogProc data (env.dialog s.dialogs),
   { s with dialogs := s.dialogs + 1, trace := s.trace ++ [Event.passwordDialog data.filename] })

/-- Lines 332-357. The count is below `MAX_PASSWORD_ATTEMPTS` when it is
incremented, so the `int` cannot overflow there. -/
def PromptForPassword (env : Env) (s : State) (filename : String) :
    PasswordDialogData × State :=
  let data : PasswordDialogData := { filename := filename }
  let s := { s with passwordAttempts := AttemptMap.subscript s.passwordAttempts filename }
  if AttemptMap.count s.passwordAttempts filename ≥ MAX_PASSWORD_ATTEMPTS then
    let s := { s with trace := s.trace ++
      [Event.errorBox ("Maximum password attempts exceeded for: " ++ filename)] }
    ({ data with cancelled := true }, s)
  else
    let s := { s with passwordAttempts :=
      AttemptMap.assign s.passwordAttempts filename (AttemptMap.count s.passwordAttempts filename + 1) }
    DialogBoxParam env s data

/-! ## Dispatch (lines 295-323) -/

/-- Lines 312-322: the part of `ProcessArchiveFile` after the confirmation. -/
def ProcessArchiveFile.extract (env : Env) (s : State) (filePath filename : String) : State :=
  let s := { s with passwordAttempts := AttemptMap.assign s.passwordAttempts filename 0 }
  let r := ExtractArchive env s filePath "" ""
  if !r.1 then
    let p := PromptForPassword env r.2 filename
    let data := p.1
    if !data.cancelled && data.password ≠ "" then
      (ExtractArchive env p.2 filePath data.password data.twoFactorCode).2
    else p.2
  else r.2

/-- Lines 295-323. The first event records the call itself. -/
def ProcessArchiveFile (env : Env) (s : State) (filePath filename : String) : State :=
  let s := { s with trace := s.trace ++ [Event.processArchiveFile filePath filename] }
  if !IsConventionalArchive filename then
    let message := "Do you want to extract the archive: " ++ filename ++ "?\n\n" ++
      "File path: " ++ filePath ++ "\n" ++ "This is a non-standard archive format."
    let result := env.confirm s.confirms
    let s := { s with confirms := s.confirms + 1, trace := s.trace ++ [Event.confirmBox message] }
    if result ≠ IDYES then LogEvent s ("User declined to extract: " ++ filename)
    else ProcessArchiveFile.extract env s filePath filename
  else ProcessArchiveFile.extract env s filePath filename

/-! ## DirectoryWatcher: decoding one notification buffer (lines 218-251) -/

/-- One `char` of the buffer as an unsigned byte; `none` outside the buffer. -/
def readByte (buffer : List Nat) (i : Nat) : Option Nat :=
  (buffer.get? i).map (fun b => b % 256)

/-- A little-endian `WCHAR` at byte offset `i`. -/
def readWchar (buffer : List Nat) (i : Nat) : Option Nat :=
  match readByte buffer i, readByte buffer (i + 1) with
  | some b0, some b1 => some (b0 + 256 * b1)
  | _, _ => none

/-- A little-endian `DWORD` at byte offset `i`. -/
def readDword (buffer : List Nat) (i : Nat) : Option Nat :=
  match readWchar buffer i, readWchar buffer (i + 2) with
  | some lo, some hi => some (lo + 65536 * hi)
  | _, _ => none

/-- The constructor `std::wstring(p, n)`: `n` wide characters from offset `i`. -/
def readWString (buffer : List Nat) : Nat → Nat → Option (List Nat)
  | _, 0 => some []
  | i, n + 1 =>
    match readWchar buffer i, readWString buffer (i + 2) n with
    | some c, some rest => some (c :: rest)
    | _, _ => none

/-- Lines 245-251. -/
def WStringToString (env : Env) (wstr : List Nat) : String :=
  if wstr.isEmpty then "" else env.wideToUtf8 wstr

/-- Lines 225-236: what is done with the file name of an added or renamed
file. -/
def ProcessDirectoryChanges.onNewFile (env : Env) (s : State) (filename : List Nat) : State :=
  let filenameStr := WStringToString env filename
  let fullPath := s.downloadsPath ++ "\\" ++ filenameStr
  let r := WaitForFileStable env s fullPath
  if r.1 then
    if IsArchiveFile filenameStr then
      let s := LogEvent r.2 ("Detected archive: " ++ filenameStr)
      ProcessArchiveFile env s fullPath filenameStr
    else r.2
  else r.2

/-- Lines 224-237: the body of the loop with `pNotify` at byte offset `pos`.
A `FILE_NOTIFY_INFORMATION` has `NextEntryOffset` at offset 0, `Action` at 4,
`FileNameLength` at 8 and `FileName` at 12. The file name is read only for the
two relevant actions. The result is `none` when a read falls outside the
buffer; otherwise it is what was read from the record and the new state. -/
def ProcessDirectoryChanges.step (env : Env) (buffer : List Nat) (pos : Nat) (s : State) :
    Option (Visit × State) :=
  match readDword buffer (pos + 4) with
  | none => none
  | some action =>
    if action = FILE_ACTION_ADDED ∨ action = FILE_ACTION_RENAMED_NEW_NAME then
      match readDword buffer (pos + 8) with
      | none => none
      | some fileNameLength =>
        match readWString buffer (pos + 12) (fileNameLength / 2) with
        | none => none
        | some filename =>
          some (Visit.mk pos action (some filename),
                ProcessDirectoryChanges.onNewFile env s filename)
    else some (Visit.mk pos action none, s)

/-- Lines 223-242: the `do ... while (true)` loop with `pNotify` at byte
offset `pos`. The result is `none` when a read falls outside the buffer or the
iteration bound is used up; otherwise it is the list of visited records, in
the order of the visits, and the final state. -/
def ProcessDirectoryChanges.loop (env : Env) (buffer : List Nat) :
    Nat → Nat → State → Option (List Visit × State)
  | 0, _, _ => none
  | fuel + 1, pos, s =>
    match ProcessDirectoryChanges.step env buffer pos s with
    | none => none
    | some (v, s1) =>
      match readDword buffer pos with
      | none => none
      | some nextEntryOffset =>
        if nextEntryOffset = 0 then some ([v], s1)
        else
          match ProcessDirectoryChanges.loop env buffer fuel (pos + nextEntryOffset) s1 with
          | none => none
          | some (vs, s2) => some (v :: vs, s2)

/-- Lines 218-243. Every iteration but the last moves `pNotify` forward, and a
read at or past the end of the buffer fails, so `buffer.length + 1` iterations
are never used up. `bytesReturned` is not used by the function. -/
def ProcessDirectoryChanges (env : Env) (s : State) (buffer : List Nat) (_bytesReturned : Nat) :
    Option (List Visit × State) :=
  ProcessDirectoryChanges.loop env buffer (buffer.length + 1) 0 s

/-! ## Notification buffers that hold a given list of records -/

/-- One decoded notification record: its `Action` and its `FileName`. -/
structure NotifyRecord where
  action : Nat
  fileName : List Nat
deriving DecidableEq, Repr

/-- The buffer holds record `r` at byte offset `pos` with `NextEntryOffset`
equal to `next`; `FileNameLength` is the length of the name in bytes. -/
def recordAt (buffer : List Nat) (pos : Nat) (r : NotifyRecord) (next : Nat) : Bool :=
  (readDword buffer pos == some next) &&
  (readDword buffer (pos + 4) == some r.action) &&
  (readDword buffer (pos + 8) == some (2 * r.fileName.length)) &&
  (readWString buffer (pos + 12) r.fileName.length == some r.fileName)

/-- The buffer holds the listed records at the listed offsets, packed one
after the other: each `NextEntryOffset` leads to the next record, which starts
at or after the end of the current one, and the last one is 0. -/
def packedFrom (buffer : List Nat) : List (Nat × NotifyRecord) → Bool
  | [] => false
  | [(pos, r)] => recordAt buffer pos r 0
  | (pos, r) :: (pos2, r2) :: rest =>
    decide (pos + 12 + 2 * r.fileName.length ≤ pos2) &&
    recordAt buffer pos r (pos2 - pos) &&
    packedFrom buffer ((pos2, r2) :: rest)

/-- A notification buffer holding the listed records, the first at offset 0. -/
def holdsRecords (buffer : List Nat) (placed : List (Nat × NotifyRecord)) : Bool :=
  ((placed.head?).map (fun e => e.1) == some 0) && packedFrom buffer placed

/-- What the walk reads from a record placed at `e.1`: the action, and the
file name when the action is one of the two relevant ones. -/
def visitOf (e : Nat × NotifyRecord) : Visit :=
  Visit.mk e.1 e.2.action
    (if e.2.action = FILE_ACTION_ADDED ∨ e.2.action = FILE_ACTION_RENAMED_NEW_NAME
     then some e.2.fileName else none)

/-- The calls of `ProcessArchiveFile` recorded in a trace, in order. -/
def archiveCalls (trace : List Event) : List Event :=
  trace.filter (fun e =>
    match e with
    | Event.processArchiveFile _ _ => true
    | _ => false)

/-- The error boxes recorded in a trace, in order. -/
def errorBoxes (trace : List Event) : List Event :=
  trace.filter (fun e =>
    match e with
    | Event.errorBox _ => true
    | _ => false)

/-- Every entry of the map holds a count from 0 to `MAX_PASSWORD_ATTEMPTS`. -/
def AttemptMap.bounded (m : AttemptMap) : Prop :=
  ∀ e ∈ m, 0 ≤ e.2 ∧ e.2 ≤ MAX_PASSWORD_ATTEMPTS

/-! ## The dispatch after the confirmation -/

/-- Lines 298-300: the text of the confirmation box. -/
def ProcessArchiveFile.message (filePath filename : String) : String :=
  "Do you want to extract the archive: " ++ filename ++ "?\n\n" ++
    "File path: " ++ filePath ++ "\n" ++ "This is a non-standard archive format."

/-- Lines 297-310 for a dispatch that is not declined: the state in which
line 312 is reached. The call is recorded and, for a name that is not
conventional, the confirmation box has been shown. -/
def ProcessArchiveFile.confirmed (s : State) (filePath filename : String) : State :=
  if IsConventionalArchive filename then
    { s with trace := s.trace ++ [Event.processArchiveFile filePath filename] }
  else
    { s with confirms := s.confirms + 1,
             trace := s.trace ++ [Event.processArchiveFile filePath filename,
               Event.confirmBox (ProcessArchiveFile.message filePath filename)] }

/-- Lines 297-309 for a dispatch that is declined: the state in which
`ProcessArchiveFile` returns at line 308. -/
def ProcessArchiveFile.declined (s : State) (filePath filename : String) : State :=
  { s with confirms := s.confirms + 1,
           trace := s.trace ++ [Event.processArchiveFile filePath filename,
             Event.confirmBox (ProcessArchiveFile.message filePath filename),
             Event.log ("User declined to extract: " ++ filename)] }

/-! ## Sequences of calls on the attempt map -/

/-- One call of a member function that reads or writes `passwordAttempts`,
with its arguments. -/
inductive Call where
  | processArchiveFile (filePath filename : String)
  | promptForPassword (filename : String)
  | extractArchive (archivePath password twoFactorCode : String)
deriving DecidableEq, Repr

/-- The state after one call. -/
def runCall (env : Env) (s : State) : Call → State
  | Call.processArchiveFile filePath filename => ProcessArchiveFile env s filePath filename
  | Call.promptForPassword filename => (PromptForPassword env s filename).2
  | Call.extractArchive archivePath password twoFactorCode =>
    (ExtractArchive env s archivePath password twoFactorCode).2

/-- The state after a sequence of calls, made from left to right. -/
def runCalls (env : Env) (s : State) (calls : List Call) : State :=
  calls.foldl (runCall env) s

/-! ## Record chains that stay inside the buffer -/

/-- The record at byte offset `pos` lies wholly inside the buffer: the three
header fields and the `FileNameLength` bytes of the name that follow them. -/
def recordInside (buffer : List Nat) (pos : Nat) : Bool :=
  match readDword buffer (pos + 8) with
  | some fileNameLength => decide (pos + 12 + fileNameLength ≤ buffer.length)
  | none => false

/-- From offset `pos` on, every record lies wholly inside the buffer and its
`NextEntryOffset` is either 0 or a positive offset to the next such record. -/
inductive ChainFrom (buffer : List Nat) : Nat → Prop where
  | last (pos : Nat) :
      recordInside buffer pos = true → readDword buffer pos = some 0 → ChainFrom buffer pos
  | next (pos nextEntryOffset : Nat) :
      recordInside buffer pos = true → readDword buffer pos = some nextEntryOffset →
      0 < nextEntryOffset → ChainFrom buffer (pos + nextEntryOffset) → ChainFrom buffer pos

/-! ## Concrete environments and states for evaluating the definitions -/

/-- The part of a path after its last `\\` or `/`. -/
def lastComponent (p : String) : String :=
  String.mk ((p.data.reverse.takeWhile (fun ch => decide (ch ≠ '\\' ∧ ch ≠ '/'))).reverse)

/-- An environment that answers from finite lists; past their end every open
fails, every box is answered with 0, every dialog fails and no process starts. -/
def listEnv (opens : List Bool) (confirms : List Nat) (dialogs : List DialogAction)
    (tools : List ToolOutcome) : Env :=
  { openShared := fun n _ => opens.getD n false
    confirm := fun n => confirms.getD n 0
    dialog := fun n => dialogs.getD n DialogAction.failed
    tool := fun n => tools.getD n (ToolOutcome.mk false 0 0)
    wideToUtf8 := fun w => String.mk (w.map Char.ofNat)
    pathFilename := lastComponent }

/-- A fresh state with the given archiver path and attempt map. -/
def startState (peazipPath : String) (m : AttemptMap) : State :=
  { peazipPath := peazipPath
    downloadsPath := "C:\\Users\\u\\Downloads"
    passwordAttempts := m
    opens := 0
    confirms := 0
    dialogs := 0
    spawns := 0
    trace := [] }

/-- A buffer with two records: `a.zip` added at offset 0 (22 bytes and 2 of
padding) and `b` removed at offset 24. -/
def twoRecordBuffer : List Nat :=
  [24, 0, 0, 0, 1, 0, 0, 0, 10, 0, 0, 0, 97, 0, 46, 0, 122, 0, 105, 0, 112, 0, 0, 0,
   0, 0, 0, 0, 2, 0, 0, 0, 2, 0, 0, 0, 98, 0]

/-- The two records of `twoRecordBuffer` with their offsets. -/
def twoRecords : List (Nat × NotifyRecord) :=
  [(0, NotifyRecord.mk 1 [97, 46, 122, 105, 112]), (24, NotifyRecord.mk 2 [98])]

/-! ## Lemmas on the classifier -/

theorem tolower_eq_toLower (c : Char) : tolower c = c.toLower := by
  simp only [tolower, Char.toLower, ge_iff_le]

theorem ends_with_iff (s ext : String) : ends_with s ext = true ↔ ext.data <:+ s.data := by
  simp only [ends_with, Bool.and_eq_true, decide_eq_true_eq, beq_iff_eq]
  constructor
  · rintro ⟨_, h⟩
    exact List.suffix_iff_eq_drop.mpr h.symm
  · intro h
    exact ⟨h.length_le, (List.suffix_iff_eq_drop.mp h).symm⟩

theorem isDigit_iff (c : Char) : isDigit c = true ↔ ('0' ≤ c ∧ c ≤ '9') := by
  simp only [isDigit, Bool.and_eq_true, decide_eq_true_eq, Char.le_def, UInt32.le_def, Char.toNat]
  exact Iff.rfl

theorem matchNumberedAt_iff (l : List Char) :
    matchNumberedAt l = true ↔
      ∃ d1 d2 d3, l = ['.', d1, d2, d3] ∧
        isDigit d1 = true ∧ isDigit d2 = true ∧ isDigit d3 = true := by
  constructor
  · intro h
    match l, h with
    | [c0, c1, c2, c3], h =>
      simp only [matchNumberedAt, Bool.and_eq_true, beq_iff_eq] at h
      obtain ⟨⟨⟨h0, h1⟩, h2⟩, h3⟩ := h
      exact ⟨c1, c2, c3, by rw [h0], h1, h2, h3⟩
  · rintro ⟨d1, d2, d3, rfl, h1, h2, h3⟩
    simp [matchNumberedAt, h1, h2, h3]

theorem regexSearchNumbered_iff (l : List Char) :
    regexSearchNumbered l = true ↔
      ∃ pre d1 d2 d3, l = pre ++ ['.', d1, d2, d3] ∧
        isDigit d1 = true ∧ isDigit d2 = true ∧ isDigit d3 = true := by
  induction l with
  | nil => simp [regexSearchNumbered]
  | cons c cs ih =>
    simp only [regexSearchNumbered, Bool.or_eq_true, matchNumberedAt_iff, ih]
    constructor
    · rintro (⟨d1, d2, d3, h, hd⟩ | ⟨pre, d1, d2, d3, h, hd⟩)
      · exact ⟨[], d1, d2, d3, by simpa using h, hd⟩
      · exact ⟨c :: pre, d1, d2, d3, by simp [h], hd⟩
    · rintro ⟨pre, d1, d2, d3, h, hd⟩
      cases pre with
      | nil => exact Or.inl ⟨d1, d2, d3, by simpa using h, hd⟩
      | cons p ps =>
        simp only [List.cons_append, List.cons.injEq] at h
        exact Or.inr ⟨ps, d1, d2, d3, h.2, hd⟩

theorem any_ends_with_iff (table : List String) (s : String) :
    table.any (fun ext => ends_with s ext) = true ↔ ∃ ext ∈ table, ext.data <:+ s.data := by
  simp only [List.any_eq_true, ends_with_iff]

theorem IsArchiveFile_eq_true_iff (s : String) :
    IsArchiveFile s = true ↔
      ((∃ ext ∈ supportedExtensions, ext.data <:+ (lowerString s).data) ∨
       (∃ pre d1 d2 d3, (lowerString s).data = pre ++ ['.', d1, d2, d3] ∧
          ('0' ≤ d1 ∧ d1 ≤ '9') ∧ ('0' ≤ d2 ∧ d2 ≤ '9') ∧ ('0' ≤ d3 ∧ d3 ≤ '9'))) := by
  unfold IsArchiveFile
  simp only []
  split
  · next h =>
    simp only [true_iff]
    exact Or.inl ((any_ends_with_iff _ _).mp h)
  · next h =>
    rw [regexSearchNumbered_iff]
    simp only [isDigit_iff]
    constructor
    · intro h2
      exact Or.inr h2
    · rintro (h1 | h2)
      · exact absurd ((any_ends_with_iff _ _).mpr h1) h
      · exact h2

/-! ## C3: the archive classifier -/

/-- C3: `IsArchiveFile s` is true exactly when the lowercased name ends with an
entry of `supportedExtensions` or with a dot and three decimal digits, it is
false for every other name, and two names with the same ASCII-lowercased form
(names that differ only in the case of ASCII letters) get the same answer. -/
theorem IsArchiveFile_characterisation (s : String) :
    (IsArchiveFile s = true ↔
      ((∃ ext ∈ supportedExtensions, ext.data <:+ (lowerString s).data) ∨
       (∃ pre d1 d2 d3, (lowerString s).data = pre ++ ['.', d1, d2, d3] ∧
          ('0' ≤ d1 ∧ d1 ≤ '9') ∧ ('0' ≤ d2 ∧ d2 ≤ '9') ∧ ('0' ≤ d3 ∧ d3 ≤ '9')))) ∧
    (IsArchiveFile s = false ↔
      ¬ ((∃ ext ∈ supportedExtensions, ext.data <:+ (lowerString s).data) ∨
       (∃ pre d1 d2 d3, (lowerString s).data = pre ++ ['.', d1, d2, d3] ∧
          ('0' ≤ d1 ∧ d1 ≤ '9') ∧ ('0' ≤ d2 ∧ d2 ≤ '9') ∧ ('0' ≤ d3 ∧ d3 ≤ '9')))) ∧
    (lowerString s).data = s.data.map Char.toLower ∧
    (∀ t : String, t.data.map Char.toLower = s.data.map Char.toLower →
      IsArchiveFile t = IsArchiveFile s) := by
  refine ⟨IsArchiveFile_eq_true_iff s, ?_, ?_, ?_⟩
  · rw [← IsArchiveFile_eq_true_iff s]
    simp
  · have e : tolower = Char.toLower := funext tolower_eq_toLower
    simp only [lowerString, e]
  · intro t ht
    have e : tolower = Char.toLower := funext tolower_eq_toLower
    have h : lowerString t = lowerString s := by
      simp only [lowerString, e]
      exact congrArg String.mk ht
    simp only [IsArchiveFile, h]

/-! ## C4: the conventional subset -/

/-- C4: a name whose lowercased form ends with one of .zip, .rar, .7z, .tar,
.gz, .bz2 is conventional; a name that `IsArchiveFile` accepts and whose
lowercased form ends with none of the six is not conventional, as for
data.xyz999.001, x.tbz2 and x.iso. -/
theorem IsConventionalArchive_subset :
    (∀ s : String,
      (∃ ext ∈ [".zip", ".rar", ".7z", ".tar", ".gz", ".bz2"],
        String.data ext <:+ (lowerString s).data) →
      IsConventionalArchive s = true) ∧
    (∀ s : String, IsArchiveFile s = true →
      (∀ ext ∈ [".zip", ".rar", ".7z", ".tar", ".gz", ".bz2"],
        ¬ String.data ext <:+ (lowerString s).data) →
      IsConventionalArchive s = false) ∧
    (IsArchiveFile "data.xyz999.001" = true ∧ IsConventionalArchive "data.xyz999.001" = false) ∧
    (IsArchiveFile "x.tbz2" = true ∧ IsConventionalArchive "x.tbz2" = false) ∧
    (IsArchiveFile "x.iso" = true ∧ IsConventionalArchive "x.iso" = false) := by
  refine ⟨?_, ?_, by decide, by decide, by decide⟩
  · intro s h
    have h2 : conventionalExtensions.any (fun ext => ends_with (lowerString s) ext) = true :=
      (any_ends_with_iff _ _).mpr h
    simp only [IsConventionalArchive, h2, if_true]
  · intro s _ h
    have h2 : ¬ conventionalExtensions.any (fun ext => ends_with (lowerString s) ext) = true := by
      intro h3
      obtain ⟨ext, hmem, hsuf⟩ := (any_ends_with_iff _ _).mp h3
      exact h ext hmem hsuf
    simp only [IsConventionalArchive, h2]
    rfl

/-- C4 at concrete names: `Report.ZIP` is conventional, `backup.Part1` is an
archive and is not conventional. -/
theorem IsConventionalArchive_subset_witness :
    IsConventionalArchive "Report.ZIP" = true ∧ IsConventionalArchive "backup.Part1" = false :=
  ⟨IsConventionalArchive_subset.1 "Report.ZIP" ⟨".zip", by decide, by decide⟩,
   IsConventionalArchive_subset.2.1 "backup.Part1" (by decide) (by decide)⟩

/-! ## Lemmas on the stability probe -/

theorem WaitForFileStable.loop_success (env : Env) (filePath : String) :
    ∀ (n : Nat) (s : State) (k : Nat), k < n →
      env.openShared (s.opens + k) filePath = true →
      (∀ j, j < k → env.openShared (s.opens + j) filePath = false) →
      WaitForFileStable.loop env filePath n s =
        (true, { s with opens := s.opens + (k + 1),
                        trace := s.trace ++ List.replicate (k + 1) (Event.openAttempt filePath) }) := by
  intro n
  induction n with
  | zero => intro s k hk; omega
  | succ n ih =>
    intro s k hk hok hbefore
    cases k with
    | zero =>
      have h0 : env.openShared s.opens filePath = true := by simpa using hok
      simp [WaitForFileStable.loop, h0]
    | succ k =>
      have h0 : env.openShared s.opens filePath = false := by simpa using hbefore 0 (by omega)
      simp only [WaitForFileStable.loop, h0]
      rw [ih _ k (by omega)]
      · have e1 : s.opens + 1 + (k + 1) = s.opens + (k + 1 + 1) := by omega
        have e2 : s.trace ++ [Event.openAttempt filePath] ++
            List.replicate (k + 1) (Event.openAttempt filePath) =
            s.trace ++ List.replicate (k + 1 + 1) (Event.openAttempt filePath) := by
          rw [List.append_assoc]
          rfl
        simp only [Bool.false_eq_true, if_false, e1, e2]
      · have e : s.opens + 1 + k = s.opens + (k + 1) := by omega
        simp only [e]
        exact hok
      · intro j hj
        have e : s.opens + 1 + j = s.opens + (j + 1) := by omega
        simp only [e]
        exact hbefore (j + 1) (by omega)

theorem WaitForFileStable.loop_failure (env : Env) (filePath : String) :
    ∀ (n : Nat) (s : State),
      (∀ j, j < n → env.openShared (s.opens + j) filePath = false) →
      WaitForFileStable.loop env filePath n s =
        (false, { s with opens := s.opens + n,
                         trace := s.trace ++ List.replicate n (Event.openAttempt filePath) }) := by
  intro n
  induction n with
  | zero => intro s _; simp [WaitForFileStable.loop]
  | succ n ih =>
    intro s hall
    have h0 : env.openShared s.opens filePath = false := by simpa using hall 0 (by omega)
    simp only [WaitForFileStable.loop, h0]
    rw [ih]
    · have e1 : s.opens + 1 + n = s.opens + (n + 1) := by omega
      have e2 : s.trace ++ [Event.openAttempt filePath] ++
          List.replicate n (Event.openAttempt filePath) =
          s.trace ++ List.replicate (n + 1) (Event.openAttempt filePath) := by
        rw [List.append_assoc]
        rfl
      simp only [Bool.false_eq_true, if_false, e1, e2]
    · intro j hj
      have e : s.opens + 1 + j = s.opens + (j + 1) := by omega
      simp only [e]
      exact hall (j + 1) (by omega)

/-- The probe either made `k + 1` attempts, the last one the first to succeed,
or made ten attempts that all failed; nothing but `opens` and `trace` changes. -/
theorem WaitForFileStable_cases (env : Env) (s : State) (filePath : String) :
    (∃ k, k < 10 ∧ env.openShared (s.opens + k) filePath = true ∧
      (∀ j, j < k → env.openShared (s.opens + j) filePath = false) ∧
      WaitForFileStable env s filePath =
        (true, { s with opens := s.opens + (k + 1),
                        trace := s.trace ++ List.replicate (k + 1) (Event.openAttempt filePath) })) ∨
    ((∀ j, j < 10 → env.openShared (s.opens + j) filePath = false) ∧
      WaitForFileStable env s filePath =
        (false, { s with opens := s.opens + 10,
                         trace := s.trace ++ List.replicate 10 (Event.openAttempt filePath) })) := by
  by_cases h : ∃ k, k < 10 ∧ env.openShared (s.opens + k) filePath = true
  · left
    classical
    refine ⟨Nat.find h, (Nat.find_spec h).1, (Nat.find_spec h).2, ?_, ?_⟩
    · intro j hj
      have hmin := Nat.find_min h hj
      have hj10 : j < 10 := lt_trans hj (Nat.find_spec h).1
      simpa [hj10] using hmin
    · refine WaitForFileStable.loop_success env filePath 10 s _ (Nat.find_spec h).1
        (Nat.find_spec h).2 ?_
      intro j hj
      have hmin := Nat.find_min h hj
      have hj10 : j < 10 := lt_trans hj (Nat.find_spec h).1
      simpa [hj10] using hmin
  · right
    have hall : ∀ j, j < 10 → env.openShared (s.opens + j) filePath = false := by
      intro j hj
      by_contra hc
      exact h ⟨j, hj, by simpa using hc⟩
    exact ⟨hall, WaitForFileStable.loop_failure env filePath 10 s hall⟩

/-! ## C5: the stability probe -/

/-- C5: with the outcome of the open attempts given by the environment,
`WaitForFileStable` returns true exactly when one of the next ten attempts
succeeds; when the attempt number `k + 1` is the first to succeed it returns
true after exactly `k + 1` attempts; when all ten fail it returns false after
exactly ten attempts. -/
theorem WaitForFileStable_attempts (env : Env) (s : State) (filePath : String) :
    ((WaitForFileStable env s filePath).1 = true ↔
      ∃ k, k < 10 ∧ env.openShared (s.opens + k) filePath = true) ∧
    (∀ k, k < 10 → env.openShared (s.opens + k) filePath = true →
      (∀ j, j < k → env.openShared (s.opens + j) filePath = false) →
      (WaitForFileStable env s filePath).1 = true ∧
      (WaitForFileStable env s filePath).2.opens = s.opens + (k + 1) ∧
      (WaitForFileStable env s filePath).2.trace =
        s.trace ++ List.replicate (k + 1) (Event.openAttempt filePath)) ∧
    ((∀ k, k < 10 → env.openShared (s.opens + k) filePath = false) →
      (WaitForFileStable env s filePath).1 = false ∧
      (WaitForFileStable env s filePath).2.opens = s.opens + 10 ∧
      (WaitForFileStable env s filePath).2.trace =
        s.trace ++ List.replicate 10 (Event.openAttempt filePath)) := by
  refine ⟨?_, ?_, ?_⟩
  · rcases WaitForFileStable_cases env s filePath with ⟨k, hk, hok, _, heq⟩ | ⟨hall, heq⟩
    · rw [heq]
      exact ⟨fun _ => ⟨k, hk, hok⟩, fun _ => rfl⟩
    · rw [heq]
      constructor
      · intro h
        exact absurd h (by simp)
      · rintro ⟨k, hk, hok⟩
        rw [hall k hk] at hok
        exact absurd hok (by simp)
  · intro k hk hok hbefore
    have heq := WaitForFileStable.loop_success env filePath 10 s k hk hok hbefore
    unfold WaitForFileStable
    rw [heq]
    exact ⟨rfl, rfl, rfl⟩
  · intro hall
    have heq := WaitForFileStable.loop_failure env filePath 10 s hall
    unfold WaitForFileStable
    rw [heq]
    exact ⟨rfl, rfl, rfl⟩

/-- C5 at a file whose third open attempt is the first to succeed: true after
three attempts; and at a file that cannot be opened: false after ten. -/
theorem WaitForFileStable_attempts_witness :
    ((WaitForFileStable (listEnv [false, false, true] [] [] [])
        (startState "C:\\PeaZip\\peazip.exe" []) "C:\\d\\a.zip").1 = true ∧
     (WaitForFileStable (listEnv [false, false, true] [] [] [])
        (startState "C:\\PeaZip\\peazip.exe" []) "C:\\d\\a.zip").2.opens = 3) ∧
    ((WaitForFileStable (listEnv [] [] [] [])
        (startState "C:\\PeaZip\\peazip.exe" []) "C:\\d\\a.zip").1 = false ∧
     (WaitForFileStable (listEnv [] [] [] [])
        (startState "C:\\PeaZip\\peazip.exe" []) "C:\\d\\a.zip").2.opens = 10) :=
  have h1 := (WaitForFileStable_attempts (listEnv [false, false, true] [] [] [])
    (startState "C:\\PeaZip\\peazip.exe" []) "C:\\d\\a.zip").2.1 2
    (by decide) (by decide) (by decide)
  have h2 := (WaitForFileStable_attempts (listEnv [] [] [] [])
    (startState "C:\\PeaZip\\peazip.exe" []) "C:\\d\\a.zip").2.2
    (fun _ _ => rfl)
  ⟨⟨h1.1, h1.2.1⟩, ⟨h2.1, h2.2.1⟩⟩

/-! ## Lemmas on the attempt map -/

theorem AttemptMap.erase_cons (e : String × Int) (rest : AttemptMap) (k : String) :
    AttemptMap.erase (e :: rest) k =
      if e.1 = k then AttemptMap.erase rest k else e :: AttemptMap.erase rest k := by
  by_cases h : e.1 = k
  · simp [AttemptMap.erase, List.filter_cons, h]
  · simp [AttemptMap.erase, List.filter_cons, h]

theorem AttemptMap.find_cons (k1 : String) (v : Int) (rest : AttemptMap) (k : String) :
    AttemptMap.find ((k1, v) :: rest) k =
      if k1 = k then some v else AttemptMap.find rest k := rfl

theorem AttemptMap.find_erase_self (m : AttemptMap) (k : String) :
    AttemptMap.find (AttemptMap.erase m k) k = none := by
  induction m with
  | nil => rfl
  | cons e rest ih =>
    obtain ⟨k1, v⟩ := e
    rw [AttemptMap.erase_cons]
    by_cases h : k1 = k
    · simp only [h, if_true, ih]
    · simp only [h, if_false, AttemptMap.find_cons, ih]

theorem AttemptMap.find_erase_other (m : AttemptMap) (k k2 : String) (hne : k2 ≠ k) :
    AttemptMap.find (AttemptMap.erase m k) k2 = AttemptMap.find m k2 := by
  induction m with
  | nil => rfl
  | cons e rest ih =>
    obtain ⟨k1, v⟩ := e
    rw [AttemptMap.erase_cons]
    by_cases h : k1 = k
    · have h2 : ¬ k1 = k2 := by rw [h]; exact fun e => hne e.symm
      simp only [h, if_true, AttemptMap.find_cons, ih]
      rw [h] at h2
      simp only [h2, if_false]
    · simp only [h, if_false, AttemptMap.find_cons, ih]

/-! ## Lemmas on the extraction -/

theorem ExtractArchive_no_tool (env : Env) (s : State) (archivePath password twoFactorCode : String)
    (h : s.peazipPath = "") :
    ExtractArchive env s archivePath password twoFactorCode =
      (false, { s with trace := s.trace ++
        [Event.notify "Auto Unzip - Error" "PeaZip not found. Please install PeaZip.",
         Event.log "PeaZip not found at expected locations"] }) := by
  simp [ExtractArchive, h, ShowTrayNotification, LogEvent]

theorem ExtractArchive_not_started (env : Env) (s : State)
    (archivePath password twoFactorCode : String)
    (ht : s.peazipPath ≠ "") (hs : (env.tool s.spawns).started = false) :
    ExtractArchive env s archivePath password twoFactorCode =
      (false, { s with spawns := s.spawns + 1, trace := s.trace ++
        [Event.log ("Executing: " ++
            ExtractArchive.command s.peazipPath archivePath password twoFactorCode),
         Event.createProcess
            (ExtractArchive.command s.peazipPath archivePath password twoFactorCode),
         Event.log "Failed to start PeaZip process"] }) := by
  simp [ExtractArchive, ht, hs, LogEvent]

theorem ExtractArchive_success (env : Env) (s : State)
    (archivePath password twoFactorCode : String)
    (ht : s.peazipPath ≠ "") (hs : (env.tool s.spawns).started = true)
    (hw : (env.tool s.spawns).waitResult = WAIT_OBJECT_0)
    (he : (env.tool s.spawns).exitCode = 0) :
    ExtractArchive env s archivePath password twoFactorCode =
      (true, { s with
        passwordAttempts := AttemptMap.erase s.passwordAttempts (env.pathFilename archivePath),
        spawns := s.spawns + 1,
        trace := s.trace ++
          [Event.log ("Executing: " ++
              ExtractArchive.command s.peazipPath archivePath password twoFactorCode),
           Event.createProcess
              (ExtractArchive.command s.peazipPath archivePath password twoFactorCode),
           Event.notify "Auto Unzip - Success" ("Extracted: " ++ env.pathFilename archivePath),
           Event.log ("Successfully extracted: " ++ env.pathFilename archivePath)] }) := by
  simp [ExtractArchive, ht, hs, hw, he, LogEvent, ShowTrayNotification]

theorem ExtractArchive_exit_nonzero (env : Env) (s : State)
    (archivePath password twoFactorCode : String)
    (ht : s.peazipPath ≠ "") (hs : (env.tool s.spawns).started = true)
    (hw : (env.tool s.spawns).waitResult = WAIT_OBJECT_0)
    (he : (env.tool s.spawns).exitCode ≠ 0) :
    ExtractArchive env s archivePath password twoFactorCode =
      (false, { s with spawns := s.spawns + 1, trace := s.trace ++
        [Event.log ("Executing: " ++
            ExtractArchive.command s.peazipPath archivePath password twoFactorCode),
         Event.createProcess
            (ExtractArchive.command s.peazipPath archivePath password twoFactorCode),
         Event.log ("Extraction failed with exit code: " ++
            toString (env.tool s.spawns).exitCode)] }) := by
  simp [ExtractArchive, ht, hs, hw, he, LogEvent]

theorem ExtractArchive_timeout (env : Env) (s : State)
    (archivePath password twoFactorCode : String)
    (ht : s.peazipPath ≠ "") (hs : (env.tool s.spawns).started = true)
    (hw : (env.tool s.spawns).waitResult = WAIT_TIMEOUT) :
    ExtractArchive env s archivePath password twoFactorCode =
      (false, { s with spawns := s.spawns + 1, trace := s.trace ++
        [Event.log ("Executing: " ++
            ExtractArchive.command s.peazipPath archivePath password twoFactorCode),
         Event.createProcess
            (ExtractArchive.command s.peazipPath archivePath password twoFactorCode),
         Event.terminateProcess,
         Event.log ("Extraction timed out for: " ++ archivePath),
         Event.log "Extraction failed with exit code: 1"] }) := by
  have hne : WAIT_TIMEOUT ≠ WAIT_OBJECT_0 := by decide
  have h1 : toString (1 : Nat) = "1" := by decide
  simp [ExtractArchive, ht, hs, hw, hne, LogEvent, h1]

theorem ExtractArchive_wait_other (env : Env) (s : State)
    (archivePath password twoFactorCode : String)
    (ht : s.peazipPath ≠ "") (hs : (env.tool s.spawns).started = true)
    (hw0 : (env.tool s.spawns).waitResult ≠ WAIT_OBJECT_0)
    (hw1 : (env.tool s.spawns).waitResult ≠ WAIT_TIMEOUT) :
    ExtractArchive env s archivePath password twoFactorCode =
      (false, { s with spawns := s.spawns + 1, trace := s.trace ++
        [Event.log ("Executing: " ++
            ExtractArchive.command s.peazipPath archivePath password twoFactorCode),
         Event.createProcess
            (ExtractArchive.command s.peazipPath archivePath password twoFactorCode),
         Event.log "Extraction failed with exit code: 1"] }) := by
  have h1 : toString (1 : Nat) = "1" := by decide
  simp [ExtractArchive, ht, hs, hw0, hw1, LogEvent, h1]

/-- The six ways a call of `ExtractArchive` can go, each with its result. -/
theorem ExtractArchive_cases (env : Env) (s : State)
    (archivePath password twoFactorCode : String) :
    (s.peazipPath = "" ∧
      ExtractArchive env s archivePath password twoFactorCode =
        (false, { s with trace := s.trace ++
          [Event.notify "Auto Unzip - Error" "PeaZip not found. Please install PeaZip.",
           Event.log "PeaZip not found at expected locations"] })) ∨
    (s.peazipPath ≠ "" ∧
      (env.tool s.spawns).started = true ∧
      (env.tool s.spawns).waitResult = WAIT_OBJECT_0 ∧
      (env.tool s.spawns).exitCode = 0 ∧
      ExtractArchive env s archivePath password twoFactorCode =
        (true, { s with
          passwordAttempts := AttemptMap.erase s.passwordAttempts (env.pathFilename archivePath),
          spawns := s.spawns + 1,
          trace := s.trace ++
            [Event.log ("Executing: " ++
                ExtractArchive.command s.peazipPath archivePath password twoFactorCode),
             Event.createProcess
                (ExtractArchive.command s.peazipPath archivePath password twoFactorCode),
             Event.notify "Auto Unzip - Success" ("Extracted: " ++ env.pathFilename archivePath),
             Event.log ("Successfully extracted: " ++ env.pathFilename archivePath)] })) ∨
    (s.peazipPath ≠ "" ∧
      ¬ ((env.tool s.spawns).started = true ∧
         (env.tool s.spawns).waitResult = WAIT_OBJECT_0 ∧
         (env.tool s.spawns).exitCode = 0) ∧
      ∃ tail : List Event,
        (∀ e ∈ tail, e = Event.terminateProcess ∨ ∃ m, e = Event.log m) ∧
        ExtractArchive env s archivePath password twoFactorCode =
          (false, { s with spawns := s.spawns + 1, trace := s.trace ++
            ([Event.log ("Executing: " ++
                ExtractArchive.command s.peazipPath archivePath password twoFactorCode),
              Event.createProcess
                (ExtractArchive.command s.peazipPath archivePath password twoFactorCode)] ++
              tail) })) := by
  by_cases ht : s.peazipPath = ""
  · exact Or.inl ⟨ht, ExtractArchive_no_tool env s _ _ _ ht⟩
  · right
    by_cases hs : (env.tool s.spawns).started = true
    · by_cases hw : (env.tool s.spawns).waitResult = WAIT_OBJECT_0
      · by_cases he : (env.tool s.spawns).exitCode = 0
        · exact Or.inl ⟨ht, hs, hw, he, ExtractArchive_success env s _ _ _ ht hs hw he⟩
        · refine Or.inr ⟨ht, fun h => he h.2.2, _, ?_,
            ExtractArchive_exit_nonzero env s _ _ _ ht hs hw he⟩
          simp
      · by_cases hw1 : (env.tool s.spawns).waitResult = WAIT_TIMEOUT
        · refine Or.inr ⟨ht, fun h => hw h.2.1, _, ?_,
            ExtractArchive_timeout env s _ _ _ ht hs hw1⟩
          simp
        · refine Or.inr ⟨ht, fun h => hw h.2.1, _, ?_,
            ExtractArchive_wait_other env s _ _ _ ht hs hw hw1⟩
          simp
    · have hs2 : (env.tool s.spawns).started = false := by simpa using hs
      refine Or.inr ⟨ht, fun h => hs h.1, _, ?_,
        ExtractArchive_not_started env s _ _ _ ht hs2⟩
      simp

theorem ExtractArchive_fst_eq_true_iff (env : Env) (s : State)
    (archivePath password twoFactorCode : String) :
    (ExtractArchive env s archivePath password twoFactorCode).1 = true ↔
      (s.peazipPath ≠ "" ∧ (env.tool s.spawns).started = true ∧
       (env.tool s.spawns).waitResult = WAIT_OBJECT_0 ∧
       (env.tool s.spawns).exitCode = 0) := by
  rcases ExtractArchive_cases env s archivePath password twoFactorCode with
    ⟨ht, heq⟩ | ⟨ht, hs, hw, he, heq⟩ | ⟨ht, hnot, tail, _, heq⟩
  · rw [heq]
    constructor
    · intro h
      exact absurd h (by simp)
    · intro h
      exact absurd ht h.1
  · rw [heq]
    exact ⟨fun _ => ⟨ht, hs, hw, he⟩, fun _ => rfl⟩
  · rw [heq]
    constructor
    · intro h
      exact absurd h (by simp)
    · intro h
      exact absurd h.2 hnot

theorem ExtractArchive_false_keeps_map (env : Env) (s : State)
    (archivePath password twoFactorCode : String)
    (h : (ExtractArchive env s archivePath password twoFactorCode).1 = false) :
    (ExtractArchive env s archivePath password twoFactorCode).2.passwordAttempts =
      s.passwordAttempts := by
  rcases ExtractArchive_cases env s archivePath password twoFactorCode with
    ⟨_, heq⟩ | ⟨_, _, _, _, heq⟩ | ⟨_, _, tail, _, heq⟩
  · rw [heq]
  · rw [heq] at h
    exact absurd h (by simp)
  · rw [heq]

/-! ## C6: when the extraction succeeds -/

/-- C6: `ExtractArchive` returns true exactly when the archiver path is not
empty, the process was started, the wait returned `WAIT_OBJECT_0` and the exit
code is 0; when the wait times out the process is terminated and the result is
false, whatever the exit code of the outcome is. -/
theorem ExtractArchive_true_iff (env : Env) (s : State)
    (archivePath password twoFactorCode : String) :
    ((ExtractArchive env s archivePath password twoFactorCode).1 = true ↔
      (s.peazipPath ≠ "" ∧ (env.tool s.spawns).started = true ∧
       (env.tool s.spawns).waitResult = WAIT_OBJECT_0 ∧
       (env.tool s.spawns).exitCode = 0)) ∧
    (s.peazipPath ≠ "" → (env.tool s.spawns).started = true →
      (env.tool s.spawns).waitResult = WAIT_TIMEOUT →
      (ExtractArchive env s archivePath password twoFactorCode).1 = false ∧
      (ExtractArchive env s archivePath password twoFactorCode).2.trace =
        s.trace ++
        [Event.log ("Executing: " ++
            ExtractArchive.command s.peazipPath archivePath password twoFactorCode),
         Event.createProcess
            (ExtractArchive.command s.peazipPath archivePath password twoFactorCode),
         Event.terminateProcess,
         Event.log ("Extraction timed out for: " ++ archivePath),
         Event.log "Extraction failed with exit code: 1"]) := by
  refine ⟨ExtractArchive_fst_eq_true_iff env s _ _ _, ?_⟩
  intro ht hs hw
  rw [ExtractArchive_timeout env s _ _ _ ht hs hw]
  exact ⟨rfl, rfl⟩

/-- C6 at a process that is started, times out, and would have exited with
code 0: the result is false. -/
theorem ExtractArchive_true_iff_witness :
    (ExtractArchive (listEnv [] [] [] [ToolOutcome.mk true 258 0])
      (startState "C:\\PeaZip\\peazip.exe" []) "C:\\d\\a.zip" "" "").1 = false :=
  ((ExtractArchive_true_iff (listEnv [] [] [] [ToolOutcome.mk true 258 0])
      (startState "C:\\PeaZip\\peazip.exe" []) "C:\\d\\a.zip" "" "").2
    (by decide) (by decide) (by decide)).1

/-! ## C7: the command line -/

/-- C7: with a non-empty archiver path, `ExtractArchive` logs and passes to
`CreateProcessA` a command line made of the quoted archiver path, the switches
`-ext2folder -o+`, then `-pwd` with the quoted password exactly when the
password is not empty, then `-2fa` with the quoted code exactly when the code
is not empty, and last the quoted archive path. -/
theorem ExtractArchive_command_form (env : Env) (s : State)
    (archivePath password twoFactorCode : String) (ht : s.peazipPath ≠ "") :
    (∃ tail : List Event,
      (ExtractArchive env s archivePath password twoFactorCode).2.trace =
        s.trace ++
        ([Event.log ("Executing: " ++
            ExtractArchive.command s.peazipPath archivePath password twoFactorCode),
          Event.createProcess
            (ExtractArchive.command s.peazipPath archivePath password twoFactorCode)] ++
          tail)) ∧
    (password = "" → twoFactorCode = "" →
      ExtractArchive.command s.peazipPath archivePath password twoFactorCode =
        "\"" ++ s.peazipPath ++ "\" -ext2folder -o+ \"" ++ archivePath ++ "\"") ∧
    (password ≠ "" → twoFactorCode = "" →
      ExtractArchive.command s.peazipPath archivePath password twoFactorCode =
        "\"" ++ s.peazipPath ++ "\" -ext2folder -o+ -pwd \"" ++ password ++ "\" \"" ++
          archivePath ++ "\"") ∧
    (password = "" → twoFactorCode ≠ "" →
      ExtractArchive.command s.peazipPath archivePath password twoFactorCode =
        "\"" ++ s.peazipPath ++ "\" -ext2folder -o+ -2fa \"" ++ twoFactorCode ++ "\" \"" ++
          archivePath ++ "\"") ∧
    (password ≠ "" → twoFactorCode ≠ "" →
      ExtractArchive.command s.peazipPath archivePath password twoFactorCode =
        "\"" ++ s.peazipPath ++ "\" -ext2folder -o+ -pwd \"" ++ password ++ "\" -2fa \"" ++
          twoFactorCode ++ "\" \"" ++ archivePath ++ "\"") := by
  refine ⟨?_, ?_, ?_, ?_, ?_⟩
  · rcases ExtractArchive_cases env s archivePath password twoFactorCode with
      ⟨h0, _⟩ | ⟨_, _, _, _, heq⟩ | ⟨_, _, tail, _, heq⟩
    · exact absurd h0 ht
    · rw [heq]
      exact ⟨_, rfl⟩
    · rw [heq]
      exact ⟨tail, rfl⟩
  · intro hp hc
    simp only [ExtractArchive.command, hp, hc, ne_eq, not_true_eq_false, if_false]
    apply String.ext
    simp only [String.data_append, List.append_assoc]
    rfl
  · intro hp hc
    simp only [ExtractArchive.command, hp, hc, ne_eq, not_true_eq_false, if_false,
      not_false_eq_true, if_true]
    apply String.ext
    simp only [String.data_append, List.append_assoc]
    rfl
  · intro hp hc
    simp only [ExtractArchive.command, hp, hc, ne_eq, not_true_eq_false, if_false,
      not_false_eq_true, if_true]
    apply String.ext
    simp only [String.data_append, List.append_assoc]
    rfl
  · intro hp hc
    simp only [ExtractArchive.command, hp, hc, ne_eq, not_true_eq_false, if_false,
      not_false_eq_true, if_true]
    apply String.ext
    simp only [String.data_append, List.append_assoc]
    rfl

/-- C7 at a concrete call with a password and no second-factor code. -/
theorem ExtractArchive_command_form_witness :
    ExtractArchive.command (startState "C:\\PeaZip\\peazip.exe" []).peazipPath
        "C:\\d\\a.zip" "secret" "" =
      "\"C:\\PeaZip\\peazip.exe\" -ext2folder -o+ -pwd \"secret\" \"C:\\d\\a.zip\"" :=
  (ExtractArchive_command_form (listEnv [] [] [] [])
    (startState "C:\\PeaZip\\peazip.exe" []) "C:\\d\\a.zip" "secret" ""
    (by decide)).2.2.1 (by decide) rfl

/-! ## C8: no archiver -/

/-- C8: with an empty archiver path `ExtractArchive` returns false, starts no
process, raises the one notification that PeaZip was not found (followed by a
log line), and leaves the attempt map as it was. -/
theorem ExtractArchive_tool_missing (env : Env) (s : State)
    (archivePath password twoFactorCode : String) (h : s.peazipPath = "") :
    (ExtractArchive env s archivePath password twoFactorCode).1 = false ∧
    (ExtractArchive env s archivePath password twoFactorCode).2.spawns = s.spawns ∧
    (ExtractArchive env s archivePath password twoFactorCode).2.trace =
      s.trace ++
        [Event.notify "Auto Unzip - Error" "PeaZip not found. Please install PeaZip.",
         Event.log "PeaZip not found at expected locations"] ∧
    (ExtractArchive env s archivePath password twoFactorCode).2.passwordAttempts =
      s.passwordAttempts := by
  rw [ExtractArchive_no_tool env s _ _ _ h]
  exact ⟨rfl, rfl, rfl, rfl⟩

/-- C8 at a state without archiver path and with one entry in the map. -/
theorem ExtractArchive_tool_missing_witness :
    (ExtractArchive (listEnv [] [] [] [ToolOutcome.mk true 0 0])
      (startState "" [("a.zip", 2)]) "C:\\d\\a.zip" "pw" "").1 = false ∧
    (ExtractArchive (listEnv [] [] [] [ToolOutcome.mk true 0 0])
      (startState "" [("a.zip", 2)]) "C:\\d\\a.zip" "pw" "").2.passwordAttempts =
      [("a.zip", 2)] :=
  have h := ExtractArchive_tool_missing (listEnv [] [] [] [ToolOutcome.mk true 0 0])
    (startState "" [("a.zip", 2)]) "C:\\d\\a.zip" "pw" "" rfl
  ⟨h.1, h.2.2.2⟩

/-! ## C9: the attempt map after an extraction -/

/-- C9: when `ExtractArchive` returns true the map has no entry for the file
name of the archive path, every other key reads as before, and the events of
the call are the log line, the process, one success notification and a log
line; when it returns false the map is the map before the call. -/
theorem ExtractArchive_attempt_map (env : Env) (s : State)
    (archivePath password twoFactorCode : String) :
    ((ExtractArchive env s archivePath password twoFactorCode).1 = true →
      AttemptMap.find (ExtractArchive env s archivePath password twoFactorCode).2.passwordAttempts
        (env.pathFilename archivePath) = none ∧
      (∀ k, k ≠ env.pathFilename archivePath →
        AttemptMap.find
          (ExtractArchive env s archivePath password twoFactorCode).2.passwordAttempts k =
        AttemptMap.find s.passwordAttempts k) ∧
      (ExtractArchive env s archivePath password twoFactorCode).2.trace =
        s.trace ++
          [Event.log ("Executing: " ++
              ExtractArchive.command s.peazipPath archivePath password twoFactorCode),
           Event.createProcess
              (ExtractArchive.command s.peazipPath archivePath password twoFactorCode),
           Event.notify "Auto Unzip - Success" ("Extracted: " ++ env.pathFilename archivePath),
           Event.log ("Successfully extracted: " ++ env.pathFilename archivePath)]) ∧
    ((ExtractArchive env s archivePath password twoFactorCode).1 = false →
      (ExtractArchive env s archivePath password twoFactorCode).2.passwordAttempts =
        s.passwordAttempts) := by
  refine ⟨?_, ExtractArchive_false_keeps_map env s _ _ _⟩
  intro h
  obtain ⟨ht, hs, hw, he⟩ := (ExtractArchive_fst_eq_true_iff env s _ _ _).mp h
  rw [ExtractArchive_success env s _ _ _ ht hs hw he]
  exact ⟨AttemptMap.find_erase_self _ _,
    fun k hk => AttemptMap.find_erase_other _ _ k hk, rfl⟩

/-- C9 at a successful extraction of `a.zip` with entries for `a.zip` and
`b.rar` in the map: the first is gone, the second is kept. -/
theorem ExtractArchive_attempt_map_witness :
    (ExtractArchive (listEnv [] [] [] [ToolOutcome.mk true 0 0])
      (startState "C:\\PeaZip\\peazip.exe" [("a.zip", 2), ("b.rar", 1)])
      "C:\\d\\a.zip" "pw" "").2.passwordAttempts = [("b.rar", 1)] ∧
    AttemptMap.find (ExtractArchive (listEnv [] [] [] [ToolOutcome.mk true 0 0])
      (startState "C:\\PeaZip\\peazip.exe" [("a.zip", 2), ("b.rar", 1)])
      "C:\\d\\a.zip" "pw" "").2.passwordAttempts
      ((listEnv [] [] [] [ToolOutcome.mk true 0 0]).pathFilename "C:\\d\\a.zip") = none :=
  ⟨by decide,
   ((ExtractArchive_attempt_map (listEnv [] [] [] [ToolOutcome.mk true 0 0])
      (startState "C:\\PeaZip\\peazip.exe" [("a.zip", 2), ("b.rar", 1)])
      "C:\\d\\a.zip" "pw" "").1 (by decide)).1⟩

/-! ## Lemmas on the password prompt -/

theorem AttemptMap.count_subscript (m : AttemptMap) (k : String) :
    AttemptMap.count (AttemptMap.subscript m k) k = AttemptMap.count m k := by
  unfold AttemptMap.subscript
  cases h : AttemptMap.find m k with
  | none => simp [AttemptMap.count, AttemptMap.find_cons, h]
  | some v => simp

theorem AttemptMap.count_assign (m : AttemptMap) (k : String) (v : Int) :
    AttemptMap.count (AttemptMap.assign m k v) k = v := by
  simp [AttemptMap.count, AttemptMap.assign, AttemptMap.find_cons]

theorem AttemptMap.count_erase (m : AttemptMap) (k : String) :
    AttemptMap.count (AttemptMap.erase m k) k = 0 := by
  simp [AttemptMap.count, AttemptMap.find_erase_self]

theorem AttemptMap.subscript_of_count_ne_zero (m : AttemptMap) (k : String)
    (h : AttemptMap.count m k ≠ 0) : AttemptMap.subscript m k = m := by
  unfold AttemptMap.subscript
  cases hf : AttemptMap.find m k with
  | none => simp [AttemptMap.count, hf] at h
  | some v => rfl

/-- Below the limit the count is incremented and then the dialog is run. -/
theorem PromptForPassword_below (env : Env) (s : State) (filename : String)
    (h : AttemptMap.count s.passwordAttempts filename < MAX_PASSWORD_ATTEMPTS) :
    PromptForPassword env s filename =
      DialogBoxParam env
        { s with passwordAttempts :=
            (AttemptMap.assign (AttemptMap.subscript s.passwordAttempts filename) filename
              (AttemptMap.count s.passwordAttempts filename + 1)) }
        { filename := filename } := by
  have h2 : ¬ AttemptMap.count s.passwordAttempts filename ≥ MAX_PASSWORD_ATTEMPTS :=
    not_le.mpr h
  simp only [PromptForPassword, AttemptMap.count_subscript, h2, if_false]

/-- At the limit there is an error box, no dialog, and no other change. -/
theorem PromptForPassword_blocked (env : Env) (s : State) (filename : String)
    (h : AttemptMap.count s.passwordAttempts filename ≥ MAX_PASSWORD_ATTEMPTS) :
    PromptForPassword env s filename =
      ({ filename := filename, cancelled := true },
       { s with trace := s.trace ++
          [Event.errorBox ("Maximum password attempts exceeded for: " ++ filename)] }) := by
  have hne : AttemptMap.count s.passwordAttempts filename ≠ 0 := by
    simp only [MAX_PASSWORD_ATTEMPTS] at h
    omega
  have hsub := AttemptMap.subscript_of_count_ne_zero _ _ hne
  simp only [PromptForPassword, hsub, h, if_true]

theorem PromptForPassword_below_facts (env : Env) (s : State) (filename : String)
    (h : AttemptMap.count s.passwordAttempts filename < MAX_PASSWORD_ATTEMPTS) :
    AttemptMap.count (PromptForPassword env s filename).2.passwordAttempts filename =
      AttemptMap.count s.passwordAttempts filename + 1 ∧
    (PromptForPassword env s filename).2.trace = s.trace ++ [Event.passwordDialog filename] ∧
    (∃ m, AttemptMap.count m filename = AttemptMap.count s.passwordAttempts filename + 1 ∧
      PromptForPassword env s filename =
        DialogBoxParam env { s with passwordAttempts := m } { filename := filename }) := by
  rw [PromptForPassword_below env s filename h]
  refine ⟨?_, rfl, _, ?_, rfl⟩
  · simp only [DialogBoxParam, AttemptMap.count_assign]
  · exact AttemptMap.count_assign _ _ _

/-! ## C10: three prompts per file name -/

/-- C10: for a file name whose count reads 0, each of the first three calls of
`PromptForPassword` runs the dialog in a state whose count is already one
higher, so the counts after the calls are 1, 2 and 3; a fourth call shows no
dialog, raises the error box, returns `cancelled = true` and leaves the count
at 3; once the entry is erased the count reads 0 and a call shows the dialog
again. -/
theorem PromptForPassword_three_attempts (env : Env) (s : State) (f : String)
    (h0 : AttemptMap.count s.passwordAttempts f = 0)
    (p1 p2 p3 p4 : PasswordDialogData × State)
    (h1 : p1 = PromptForPassword env s f)
    (h2 : p2 = PromptForPassword env p1.2 f)
    (h3 : p3 = PromptForPassword env p2.2 f)
    (h4 : p4 = PromptForPassword env p3.2 f) :
    (AttemptMap.count p1.2.passwordAttempts f = 1 ∧
     AttemptMap.count p2.2.passwordAttempts f = 2 ∧
     AttemptMap.count p3.2.passwordAttempts f = 3) ∧
    ((∃ m, AttemptMap.count m f = 1 ∧
        p1 = DialogBoxParam env { s with passwordAttempts := m } { filename := f }) ∧
     (∃ m, AttemptMap.count m f = 2 ∧
        p2 = DialogBoxParam env { p1.2 with passwordAttempts := m } { filename := f }) ∧
     (∃ m, AttemptMap.count m f = 3 ∧
        p3 = DialogBoxParam env { p2.2 with passwordAttempts := m } { filename := f })) ∧
    (p1.2.trace = s.trace ++ [Event.passwordDialog f] ∧
     p2.2.trace = p1.2.trace ++ [Event.passwordDialog f] ∧
     p3.2.trace = p2.2.trace ++ [Event.passwordDialog f]) ∧
    (p4.1.cancelled = true ∧
     p4.2.trace = p3.2.trace ++
       [Event.errorBox ("Maximum password attempts exceeded for: " ++ f)] ∧
     p4.2.dialogs = p3.2.dialogs ∧
     p4.2.passwordAttempts = p3.2.passwordAttempts ∧
     AttemptMap.count p4.2.passwordAttempts f = 3) ∧
    (∀ s5 : State,
      s5 = { p4.2 with passwordAttempts := AttemptMap.erase p4.2.passwordAttempts f } →
      AttemptMap.count s5.passwordAttempts f = 0 ∧
      (PromptForPassword env s5 f).2.trace = s5.trace ++ [Event.passwordDialog f] ∧
      AttemptMap.count (PromptForPassword env s5 f).2.passwordAttempts f = 1) := by
  have b1 : AttemptMap.count s.passwordAttempts f < MAX_PASSWORD_ATTEMPTS := by
    rw [h0]; decide
  have f1 := PromptForPassword_below_facts env s f b1
  rw [← h1, h0] at f1
  obtain ⟨c1, t1, d1⟩ := f1
  have c1 : AttemptMap.count p1.2.passwordAttempts f = 1 := by rw [c1]; rfl
  have b2 : AttemptMap.count p1.2.passwordAttempts f < MAX_PASSWORD_ATTEMPTS := by
    rw [c1]; decide
  have f2 := PromptForPassword_below_facts env p1.2 f b2
  rw [← h2, c1] at f2
  obtain ⟨c2, t2, d2⟩ := f2
  have c2 : AttemptMap.count p2.2.passwordAttempts f = 2 := by rw [c2]; rfl
  have b3 : AttemptMap.count p2.2.passwordAttempts f < MAX_PASSWORD_ATTEMPTS := by
    rw [c2]; decide
  have f3 := PromptForPassword_below_facts env p2.2 f b3
  rw [← h3, c2] at f3
  obtain ⟨c3, t3, d3⟩ := f3
  have c3 : AttemptMap.count p3.2.passwordAttempts f = 3 := by rw [c3]; rfl
  have b4 : AttemptMap.count p3.2.passwordAttempts f ≥ MAX_PASSWORD_ATTEMPTS := by
    rw [c3]; decide
  have e4 := PromptForPassword_blocked env p3.2 f b4
  rw [← h4] at e4
  refine ⟨⟨c1, c2, c3⟩, ⟨d1, d2, d3⟩, ⟨t1, t2, t3⟩, ?_, ?_⟩
  · rw [e4]
    exact ⟨rfl, rfl, rfl, rfl, c3⟩
  · intro s5 h5
    have z5 : AttemptMap.count s5.passwordAttempts f = 0 := by
      rw [h5]
      exact AttemptMap.count_erase _ _
    have b5 : AttemptMap.count s5.passwordAttempts f < MAX_PASSWORD_ATTEMPTS := by
      rw [z5]; decide
    obtain ⟨c5, t5, _⟩ := PromptForPassword_below_facts env s5 f b5
    rw [z5] at c5
    exact ⟨z5, t5, c5⟩

/-- C10 at the file name `a.rar` with an empty map and a user who enters a
password three times: the counts, and the blocked fourth call. -/
theorem PromptForPassword_three_attempts_witness :
    AttemptMap.count (PromptForPassword
      (listEnv [] [] [DialogAction.ok "x" "", DialogAction.ok "y" "", DialogAction.ok "z" ""] [])
      (startState "C:\\PeaZip\\peazip.exe" []) "a.rar").2.passwordAttempts "a.rar" = 1 ∧
    (PromptForPassword
      (listEnv [] [] [DialogAction.ok "x" "", DialogAction.ok "y" "", DialogAction.ok "z" ""] [])
      (PromptForPassword
        (listEnv [] [] [DialogAction.ok "x" "", DialogAction.ok "y" "", DialogAction.ok "z" ""] [])
        (PromptForPassword
          (listEnv [] [] [DialogAction.ok "x" "", DialogAction.ok "y" "", DialogAction.ok "z" ""] [])
          (PromptForPassword
            (listEnv [] [] [DialogAction.ok "x" "", DialogAction.ok "y" "", DialogAction.ok "z" ""] [])
            (startState "C:\\PeaZip\\peazip.exe" []) "a.rar").2 "a.rar").2 "a.rar").2
      "a.rar").1.cancelled = true :=
  have h := PromptForPassword_three_attempts
    (listEnv [] [] [DialogAction.ok "x" "", DialogAction.ok "y" "", DialogAction.ok "z" ""] [])
    (startState "C:\\PeaZip\\peazip.exe" []) "a.rar" (by decide) _ _ _ _ rfl rfl rfl rfl
  ⟨h.1.1, h.2.2.2.1.1⟩

/-! ## Lemmas on reading the buffer -/

theorem readByte_bound (buffer : List Nat) (i v : Nat) (h : readByte buffer i = some v) :
    i < buffer.length := by
  unfold readByte at h
  cases hg : buffer.get? i with
  | none => rw [hg] at h; simp at h
  | some b => exact (List.get?_eq_some.mp hg).1

theorem readWchar_bound (buffer : List Nat) (i v : Nat) (h : readWchar buffer i = some v) :
    i + 1 < buffer.length := by
  unfold readWchar at h
  cases h1 : readByte buffer (i + 1) with
  | none =>
    rw [h1] at h
    cases h0 : readByte buffer i <;> rw [h0] at h <;> simp at h
  | some b => exact readByte_bound buffer (i + 1) b h1

theorem readDword_bound (buffer : List Nat) (i v : Nat) (h : readDword buffer i = some v) :
    i + 4 ≤ buffer.length := by
  unfold readDword at h
  cases h1 : readWchar buffer (i + 2) with
  | none =>
    rw [h1] at h
    cases h0 : readWchar buffer i <;> rw [h0] at h <;> simp at h
  | some b =>
    have := readWchar_bound buffer (i + 2) b h1
    omega

theorem recordAt_reads (buffer : List Nat) (pos : Nat) (r : NotifyRecord) (next : Nat)
    (h : recordAt buffer pos r next = true) :
    readDword buffer pos = some next ∧
    readDword buffer (pos + 4) = some r.action ∧
    readDword buffer (pos + 8) = some (2 * r.fileName.length) ∧
    readWString buffer (pos + 12) r.fileName.length = some r.fileName := by
  simp only [recordAt, Bool.and_eq_true, beq_iff_eq] at h
  exact ⟨h.1.1.1, h.1.1.2, h.1.2, h.2⟩

/-- The loop body at a record the buffer holds: the walk reads the action,
reads the name when the action is relevant, and handles the name. -/
theorem ProcessDirectoryChanges.step_of_recordAt (env : Env) (buffer : List Nat) (pos : Nat)
    (r : NotifyRecord) (next : Nat) (s : State) (h : recordAt buffer pos r next = true) :
    ProcessDirectoryChanges.step env buffer pos s =
      some (visitOf (pos, r),
        if r.action = FILE_ACTION_ADDED ∨ r.action = FILE_ACTION_RENAMED_NEW_NAME
        then ProcessDirectoryChanges.onNewFile env s r.fileName else s) := by
  obtain ⟨_, h4, h8, h12⟩ := recordAt_reads buffer pos r next h
  have hdiv : 2 * r.fileName.length / 2 = r.fileName.length := by omega
  by_cases hrel : r.action = FILE_ACTION_ADDED ∨ r.action = FILE_ACTION_RENAMED_NEW_NAME
  · simp only [ProcessDirectoryChanges.step, h4, h8, hdiv, h12, hrel, if_true, visitOf]
  · simp only [ProcessDirectoryChanges.step, h4, hrel, if_false, visitOf]

theorem packedFrom_bound (buffer : List Nat) :
    ∀ (placed : List (Nat × NotifyRecord)) (e : Nat × NotifyRecord),
      packedFrom buffer (e :: placed) = true →
      e.1 + 12 * (placed.length + 1) ≤ buffer.length := by
  intro placed
  induction placed with
  | nil =>
    intro e h
    obtain ⟨pos, r⟩ := e
    simp only [packedFrom] at h
    have h8 := (recordAt_reads buffer pos r 0 h).2.2.1
    have := readDword_bound buffer (pos + 8) _ h8
    simp only [List.length_nil]
    omega
  | cons e2 rest ih =>
    intro e h
    obtain ⟨pos, r⟩ := e
    obtain ⟨pos2, r2⟩ := e2
    simp only [packedFrom, Bool.and_eq_true, decide_eq_true_eq] at h
    have := ih (pos2, r2) h.2
    simp only [List.length_cons] at this ⊢
    omega

theorem ProcessDirectoryChanges.loop_of_packed (env : Env) (buffer : List Nat) :
    ∀ (placed : List (Nat × NotifyRecord)) (e : Nat × NotifyRecord) (fuel : Nat) (s : State),
      packedFrom buffer (e :: placed) = true → placed.length < fuel →
      ProcessDirectoryChanges.loop env buffer fuel e.1 s =
        some ((e :: placed).map visitOf,
          (e :: placed).foldl (fun st x =>
            if x.2.action = FILE_ACTION_ADDED ∨ x.2.action = FILE_ACTION_RENAMED_NEW_NAME
            then ProcessDirectoryChanges.onNewFile env st x.2.fileName else st) s) := by
  intro placed
  induction placed with
  | nil =>
    intro e fuel s h hfuel
    obtain ⟨pos, r⟩ := e
    cases fuel with
    | zero => simp at hfuel
    | succ fuel =>
      simp only [packedFrom] at h
      have h0 := (recordAt_reads buffer pos r 0 h).1
      simp only [ProcessDirectoryChanges.loop,
        ProcessDirectoryChanges.step_of_recordAt env buffer pos r 0 s h, h0, if_true,
        List.map_cons, List.map_nil, List.foldl_cons, List.foldl_nil]
  | cons e2 rest ih =>
    intro e fuel s h hfuel
    obtain ⟨pos, r⟩ := e
    obtain ⟨pos2, r2⟩ := e2
    cases fuel with
    | zero => simp at hfuel
    | succ fuel =>
      simp only [packedFrom, Bool.and_eq_true, decide_eq_true_eq] at h
      obtain ⟨⟨hle, hrec⟩, hrest⟩ := h
      have h0 := (recordAt_reads buffer pos r (pos2 - pos) hrec).1
      have hne : ¬ pos2 - pos = 0 := by omega
      have hpos : pos + (pos2 - pos) = pos2 := by omega
      have hfuel2 : rest.length < fuel := by
        simp only [List.length_cons] at hfuel
        omega
      have hrec2 := ih (pos2, r2) fuel
        (if r.action = FILE_ACTION_ADDED ∨ r.action = FILE_ACTION_RENAMED_NEW_NAME
         then ProcessDirectoryChanges.onNewFile env s r.fileName else s) hrest hfuel2
      simp only [ProcessDirectoryChanges.loop,
        ProcessDirectoryChanges.step_of_recordAt env buffer pos r (pos2 - pos) s hrec, h0, hne,
        if_false, hpos]
      simp only at hrec2
      rw [hrec2]
      simp only [List.map_cons, List.foldl_cons]

/-! ## C1: every packed record is visited once, in order -/

/-- C1: when the buffer holds the records `placed`, packed one after the other
from offset 0 with the last `NextEntryOffset` equal to 0,
`ProcessDirectoryChanges` returns, its visits are exactly the records of
`placed` in buffer order, one visit per record, each with the action (and,
where the walk reads it, the file name) of that record, and the final state
is the one obtained by handling the records one by one in that order. -/
theorem ProcessDirectoryChanges_visits (env : Env) (s : State) (buffer : List Nat)
    (bytesReturned : Nat) (placed : List (Nat × NotifyRecord))
    (h : holdsRecords buffer placed = true) :
    ProcessDirectoryChanges env s buffer bytesReturned =
      some (placed.map visitOf,
        placed.foldl (fun st x =>
          if x.2.action = FILE_ACTION_ADDED ∨ x.2.action = FILE_ACTION_RENAMED_NEW_NAME
          then ProcessDirectoryChanges.onNewFile env st x.2.fileName else st) s) ∧
    (placed.map visitOf).length = placed.length ∧
    (∀ i (hi : i < placed.length),
      ((placed.map visitOf).get ⟨i, by simpa using hi⟩).pos = (placed.get ⟨i, hi⟩).1 ∧
      ((placed.map visitOf).get ⟨i, by simpa using hi⟩).action = (placed.get ⟨i, hi⟩).2.action ∧
      (((placed.get ⟨i, hi⟩).2.action = FILE_ACTION_ADDED ∨
        (placed.get ⟨i, hi⟩).2.action = FILE_ACTION_RENAMED_NEW_NAME) →
        ((placed.map visitOf).get ⟨i, by simpa using hi⟩).fileName =
          some (placed.get ⟨i, hi⟩).2.fileName)) := by
  refine ⟨?_, by simp, ?_⟩
  · cases placed with
    | nil => simp [holdsRecords, packedFrom] at h
    | cons e rest =>
      simp only [holdsRecords, List.head?_cons, Option.map_some', Bool.and_eq_true,
        beq_iff_eq, Option.some.injEq] at h
      obtain ⟨h0, hp⟩ := h
      have hb := packedFrom_bound buffer rest e hp
      have hloop := ProcessDirectoryChanges.loop_of_packed env buffer rest e
        (buffer.length + 1) s hp (by omega)
      rw [h0] at hloop
      exact hloop
  · intro i hi
    simp only [List.get_eq_getElem, List.getElem_map, visitOf, true_and]
    intro hrel
    simp only [hrel, if_true]

/-- C1 on a buffer with two records: both are visited, in buffer order, and
the name is read for the added file only. -/
theorem ProcessDirectoryChanges_visits_witness :
    holdsRecords twoRecordBuffer twoRecords = true ∧
    (ProcessDirectoryChanges (listEnv [true] [] [] [ToolOutcome.mk true 0 0])
        (startState "C:\\PeaZip\\peazip.exe" []) twoRecordBuffer 38).map (fun r => r.1) =
      some [Visit.mk 0 1 (some [97, 46, 122, 105, 112]), Visit.mk 24 2 none] :=
  ⟨by decide, by
    rw [(ProcessDirectoryChanges_visits (listEnv [true] [] [] [ToolOutcome.mk true 0 0])
      (startState "C:\\PeaZip\\peazip.exe" []) twoRecordBuffer 38 twoRecords (by decide)).1]
    rfl⟩

/-! ## Lemmas on the recorded calls of `ProcessArchiveFile` -/

theorem archiveCalls_append (a b : List Event) :
    archiveCalls (a ++ b) = archiveCalls a ++ archiveCalls b := by
  simp only [archiveCalls, List.filter_append]

theorem archiveCalls_replicate_openAttempt (n : Nat) (filePath : String) :
    archiveCalls (List.replicate n (Event.openAttempt filePath)) = [] := by
  induction n with
  | zero => rfl
  | succ n ih =>
    rw [List.replicate_succ]
    simp [archiveCalls]

theorem archiveCalls_log_tail (tail : List Event)
    (h : ∀ e ∈ tail, e = Event.terminateProcess ∨ ∃ m, e = Event.log m) :
    archiveCalls tail = [] := by
  induction tail with
  | nil => rfl
  | cons e rest ih =>
    have hrest := ih (fun x hx => h x (List.mem_cons_of_mem _ hx))
    rcases h e (List.mem_cons_self _ _) with he | ⟨m, he⟩
    · rw [he]
      simpa [archiveCalls] using hrest
    · rw [he]
      simpa [archiveCalls] using hrest

theorem WaitForFileStable_archiveCalls (env : Env) (s : State) (filePath : String) :
    archiveCalls (WaitForFileStable env s filePath).2.trace = archiveCalls s.trace := by
  rcases WaitForFileStable_cases env s filePath with ⟨k, _, _, _, heq⟩ | ⟨_, heq⟩
  · rw [heq]
    simp only [archiveCalls_append, archiveCalls_replicate_openAttempt, List.append_nil]
  · rw [heq]
    simp only [archiveCalls_append, archiveCalls_replicate_openAttempt, List.append_nil]

theorem ExtractArchive_archiveCalls (env : Env) (s : State)
    (archivePath password twoFactorCode : String) :
    archiveCalls (ExtractArchive env s archivePath password twoFactorCode).2.trace =
      archiveCalls s.trace := by
  rcases ExtractArchive_cases env s archivePath password twoFactorCode with
    ⟨_, heq⟩ | ⟨_, _, _, _, heq⟩ | ⟨_, _, tail, htail, heq⟩
  · rw [heq]
    simp [archiveCalls_append, archiveCalls]
  · rw [heq]
    simp [archiveCalls_append, archiveCalls]
  · rw [heq]
    simp only [archiveCalls_append, archiveCalls_log_tail tail htail, List.append_nil]
    simp [archiveCalls]

theorem PromptForPassword_archiveCalls (env : Env) (s : State) (filename : String) :
    archiveCalls (PromptForPassword env s filename).2.trace = archiveCalls s.trace := by
  by_cases h : AttemptMap.count s.passwordAttempts filename < MAX_PASSWORD_ATTEMPTS
  · rw [PromptForPassword_below env s filename h]
    simp [DialogBoxParam, archiveCalls_append, archiveCalls]
  · rw [PromptForPassword_blocked env s filename (not_lt.mp h)]
    simp [archiveCalls_append, archiveCalls]

theorem ProcessArchiveFile.extract_archiveCalls (env : Env) (s : State)
    (filePath filename : String) :
    archiveCalls (ProcessArchiveFile.extract env s filePath filename).trace =
      archiveCalls s.trace := by
  unfold ProcessArchiveFile.extract
  simp only []
  split
  · split
    · rw [ExtractArchive_archiveCalls, PromptForPassword_archiveCalls,
        ExtractArchive_archiveCalls]
    · rw [PromptForPassword_archiveCalls, ExtractArchive_archiveCalls]
  · rw [ExtractArchive_archiveCalls]

theorem ProcessArchiveFile_archiveCalls (env : Env) (s : State) (filePath filename : String) :
    archiveCalls (ProcessArchiveFile env s filePath filename).trace =
      archiveCalls s.trace ++ [Event.processArchiveFile filePath filename] := by
  unfold ProcessArchiveFile
  simp only []
  split
  · split
    · simp [LogEvent, archiveCalls_append, archiveCalls]
    · rw [ProcessArchiveFile.extract_archiveCalls]
      simp [archiveCalls_append, archiveCalls]
  · rw [ProcessArchiveFile.extract_archiveCalls]
    simp [archiveCalls_append, archiveCalls]

/-! ## C2: which records reach `ProcessArchiveFile` -/

/-- C2: for a record the buffer holds, the loop body calls `ProcessArchiveFile`
(once, on the full path and the converted name) exactly when the action is
`FILE_ACTION_ADDED` or `FILE_ACTION_RENAMED_NEW_NAME`, `WaitForFileStable` on
`downloadsPath + "\\" + filename` returns true and `IsArchiveFile` accepts the
name; in every other case there is no call, and for a record with any other
action the state is unchanged: no probe, no extraction, no change of the
attempt map. -/
theorem ProcessDirectoryChanges_dispatch (env : Env) (s : State) (buffer : List Nat)
    (pos : Nat) (r : NotifyRecord) (next : Nat) (h : recordAt buffer pos r next = true) :
    ∃ s1 : State,
      ProcessDirectoryChanges.step env buffer pos s = some (visitOf (pos, r), s1) ∧
      (((r.action = FILE_ACTION_ADDED ∨ r.action = FILE_ACTION_RENAMED_NEW_NAME) ∧
        (WaitForFileStable env s
          (s.downloadsPath ++ "\\" ++ WStringToString env r.fileName)).1 = true ∧
        IsArchiveFile (WStringToString env r.fileName) = true) →
        s1 = ProcessArchiveFile env
          (LogEvent (WaitForFileStable env s
              (s.downloadsPath ++ "\\" ++ WStringToString env r.fileName)).2
            ("Detected archive: " ++ WStringToString env r.fileName))
          (s.downloadsPath ++ "\\" ++ WStringToString env r.fileName)
          (WStringToString env r.fileName) ∧
        archiveCalls s1.trace = archiveCalls s.trace ++
          [Event.processArchiveFile
            (s.downloadsPath ++ "\\" ++ WStringToString env r.fileName)
            (WStringToString env r.fileName)]) ∧
      (¬ ((r.action = FILE_ACTION_ADDED ∨ r.action = FILE_ACTION_RENAMED_NEW_NAME) ∧
        (WaitForFileStable env s
          (s.downloadsPath ++ "\\" ++ WStringToString env r.fileName)).1 = true ∧
        IsArchiveFile (WStringToString env r.fileName) = true) →
        archiveCalls s1.trace = archiveCalls s.trace ∧
        s1.passwordAttempts = s.passwordAttempts ∧
        s1.spawns = s.spawns ∧ s1.confirms = s.confirms ∧ s1.dialogs = s.dialogs) ∧
      (¬ (r.action = FILE_ACTION_ADDED ∨ r.action = FILE_ACTION_RENAMED_NEW_NAME) →
        s1 = s) := by
  refine ⟨_, ProcessDirectoryChanges.step_of_recordAt env buffer pos r next s h, ?_, ?_, ?_⟩
  · rintro ⟨hrel, hstable, harch⟩
    simp only [hrel, if_true, ProcessDirectoryChanges.onNewFile, hstable, harch, true_and]
    rw [ProcessArchiveFile_archiveCalls]
    simp only [LogEvent, archiveCalls_append, WaitForFileStable_archiveCalls]
    simp [archiveCalls]
  · intro hnot
    by_cases hrel : r.action = FILE_ACTION_ADDED ∨ r.action = FILE_ACTION_RENAMED_NEW_NAME
    · simp only [hrel, if_true, ProcessDirectoryChanges.onNewFile]
      have hkeep : archiveCalls (WaitForFileStable env s
            (s.downloadsPath ++ "\\" ++ WStringToString env r.fileName)).2.trace =
            archiveCalls s.trace ∧
          (WaitForFileStable env s
            (s.downloadsPath ++ "\\" ++ WStringToString env r.fileName)).2.passwordAttempts =
            s.passwordAttempts ∧
          (WaitForFileStable env s
            (s.downloadsPath ++ "\\" ++ WStringToString env r.fileName)).2.spawns = s.spawns ∧
          (WaitForFileStable env s
            (s.downloadsPath ++ "\\" ++ WStringToString env r.fileName)).2.confirms =
            s.confirms ∧
          (WaitForFileStable env s
            (s.downloadsPath ++ "\\" ++ WStringToString env r.fileName)).2.dialogs =
            s.dialogs := by
        refine ⟨WaitForFileStable_archiveCalls env s _, ?_⟩
        rcases WaitForFileStable_cases env s
          (s.downloadsPath ++ "\\" ++ WStringToString env r.fileName) with
          ⟨k, _, _, _, heq⟩ | ⟨_, heq⟩
        · rw [heq]
          exact ⟨rfl, rfl, rfl, rfl⟩
        · rw [heq]
          exact ⟨rfl, rfl, rfl, rfl⟩
      by_cases hstable : (WaitForFileStable env s
          (s.downloadsPath ++ "\\" ++ WStringToString env r.fileName)).1 = true
      · have harch : ¬ IsArchiveFile (WStringToString env r.fileName) = true :=
          fun ha => hnot ⟨hrel, hstable, ha⟩
        simp only [hstable, if_true, harch, if_false]
        exact hkeep
      · simp only [hstable, if_false]
        exact hkeep
    · simp only [hrel, if_false, and_self]
  · intro hrel
    simp only [hrel, if_false]

/-- C2 on the first record of the two-record buffer: `a.zip` was added, can be
opened at the first attempt and is an archive, so there is one call of
`ProcessArchiveFile`, on the path in the downloads folder. -/
theorem ProcessDirectoryChanges_dispatch_witness :
    ∃ s1 : State,
      ProcessDirectoryChanges.step (listEnv [true] [] [] [ToolOutcome.mk true 0 0])
        twoRecordBuffer 0 (startState "C:\\PeaZip\\peazip.exe" []) =
        some (Visit.mk 0 1 (some [97, 46, 122, 105, 112]), s1) ∧
      archiveCalls s1.trace =
        [Event.processArchiveFile "C:\\Users\\u\\Downloads\\a.zip" "a.zip"] :=
  (ProcessDirectoryChanges_dispatch (listEnv [true] [] [] [ToolOutcome.mk true 0 0])
    (startState "C:\\PeaZip\\peazip.exe" []) twoRecordBuffer 0
    (NotifyRecord.mk 1 [97, 46, 122, 105, 112]) 24 (by decide)).imp
    (fun _ hs => ⟨hs.1, (hs.2.1 (by decide)).2⟩)

/-! ## Lemmas on the dispatch -/

/-- What `ExtractArchive` leaves alone. -/
theorem ExtractArchive_frame (env : Env) (s : State)
    (archivePath password twoFactorCode : String) :
    (ExtractArchive env s archivePath password twoFactorCode).2.peazipPath = s.peazipPath ∧
    (ExtractArchive env s archivePath password twoFactorCode).2.downloadsPath = s.downloadsPath ∧
    (ExtractArchive env s archivePath password twoFactorCode).2.opens = s.opens ∧
    (ExtractArchive env s archivePath password twoFactorCode).2.confirms = s.confirms ∧
    (ExtractArchive env s archivePath password twoFactorCode).2.dialogs = s.dialogs := by
  rcases ExtractArchive_cases env s archivePath password twoFactorCode with
    ⟨_, heq⟩ | ⟨_, _, _, _, heq⟩ | ⟨_, _, tail, _, heq⟩ <;>
  · rw [heq]
    exact ⟨rfl, rfl, rfl, rfl, rfl⟩

/-- The map after `ExtractArchive`: the file name of the archive path is
erased on success, nothing changes otherwise. -/
theorem ExtractArchive_map (env : Env) (s : State)
    (archivePath password twoFactorCode : String) :
    (ExtractArchive env s archivePath password twoFactorCode).2.passwordAttempts =
      if (ExtractArchive env s archivePath password twoFactorCode).1 = true
      then AttemptMap.erase s.passwordAttempts (env.pathFilename archivePath)
      else s.passwordAttempts := by
  rcases ExtractArchive_cases env s archivePath password twoFactorCode with
    ⟨_, heq⟩ | ⟨_, _, _, _, heq⟩ | ⟨_, _, tail, _, heq⟩ <;>
  · rw [heq]
    simp

/-- The events of `ExtractArchive` come after the events so far. -/
theorem ExtractArchive_trace_extends (env : Env) (s : State)
    (archivePath password twoFactorCode : String) :
    ∃ tail : List Event,
      (ExtractArchive env s archivePath password twoFactorCode).2.trace = s.trace ++ tail := by
  rcases ExtractArchive_cases env s archivePath password twoFactorCode with
    ⟨_, heq⟩ | ⟨_, _, _, _, heq⟩ | ⟨_, _, tail, _, heq⟩ <;>
  · rw [heq]
    exact ⟨_, rfl⟩

theorem errorBoxes_append (a b : List Event) :
    errorBoxes (a ++ b) = errorBoxes a ++ errorBoxes b := by
  simp only [errorBoxes, List.filter_append]

theorem errorBoxes_log_tail (tail : List Event)
    (h : ∀ e ∈ tail, e = Event.terminateProcess ∨ ∃ m, e = Event.log m) :
    errorBoxes tail = [] := by
  induction tail with
  | nil => rfl
  | cons e rest ih =>
    have hrest := ih (fun x hx => h x (List.mem_cons_of_mem _ hx))
    rcases h e (List.mem_cons_self _ _) with he | ⟨m, he⟩
    · rw [he]
      simpa [errorBoxes] using hrest
    · rw [he]
      simpa [errorBoxes] using hrest

theorem ExtractArchive_errorBoxes (env : Env) (s : State)
    (archivePath password twoFactorCode : String) :
    errorBoxes (ExtractArchive env s archivePath password twoFactorCode).2.trace =
      errorBoxes s.trace := by
  rcases ExtractArchive_cases env s archivePath password twoFactorCode with
    ⟨_, heq⟩ | ⟨_, _, _, _, heq⟩ | ⟨_, _, tail, htail, heq⟩
  · rw [heq]
    simp [errorBoxes_append, errorBoxes]
  · rw [heq]
    simp [errorBoxes_append, errorBoxes]
  · rw [heq]
    simp only [errorBoxes_append, errorBoxes_log_tail tail htail, List.append_nil]
    simp [errorBoxes]

/-- Running `ExtractArchive` with another map in the state gives the same
result and the same state but for the map. -/
theorem ExtractArchive_withMap (env : Env) (s : State) (m : AttemptMap)
    (archivePath password twoFactorCode : String) :
    ExtractArchive env { s with passwordAttempts := m } archivePath password twoFactorCode =
      ((ExtractArchive env s archivePath password twoFactorCode).1,
       { (ExtractArchive env s archivePath password twoFactorCode).2 with
          passwordAttempts :=
            (if (ExtractArchive env s archivePath password twoFactorCode).1 = true
             then AttemptMap.erase m (env.pathFilename archivePath) else m) }) := by
  by_cases ht : s.peazipPath = ""
  · rw [ExtractArchive_no_tool env { s with passwordAttempts := m } _ _ _ ht,
      ExtractArchive_no_tool env s _ _ _ ht]
    simp
  · by_cases hs : (env.tool s.spawns).started = true
    · by_cases hw : (env.tool s.spawns).waitResult = WAIT_OBJECT_0
      · by_cases he : (env.tool s.spawns).exitCode = 0
        · rw [ExtractArchive_success env { s with passwordAttempts := m } _ _ _ ht hs hw he,
            ExtractArchive_success env s _ _ _ ht hs hw he]
          simp
        · rw [ExtractArchive_exit_nonzero env { s with passwordAttempts := m } _ _ _ ht hs hw he,
            ExtractArchive_exit_nonzero env s _ _ _ ht hs hw he]
          simp
      · by_cases hw1 : (env.tool s.spawns).waitResult = WAIT_TIMEOUT
        · rw [ExtractArchive_timeout env { s with passwordAttempts := m } _ _ _ ht hs hw1,
            ExtractArchive_timeout env s _ _ _ ht hs hw1]
          simp
        · rw [ExtractArchive_wait_other env { s with passwordAttempts := m } _ _ _ ht hs hw hw1,
            ExtractArchive_wait_other env s _ _ _ ht hs hw hw1]
          simp
    · have hs2 : (env.tool s.spawns).started = false := by simpa using hs
      rw [ExtractArchive_not_started env { s with passwordAttempts := m } _ _ _ ht hs2,
        ExtractArchive_not_started env s _ _ _ ht hs2]
      simp

/-- After a failed extraction without credentials the count of the file name
is the 0 that the dispatch has just stored. -/
theorem ProcessArchiveFile.count_after_failure (env : Env) (s : State)
    (filePath filename : String)
    (h : (ExtractArchive env
        { s with passwordAttempts := AttemptMap.assign s.passwordAttempts filename 0 }
        filePath "" "").1 = false) :
    AttemptMap.count (ExtractArchive env
        { s with passwordAttempts := AttemptMap.assign s.passwordAttempts filename 0 }
        filePath "" "").2.passwordAttempts filename = 0 := by
  rw [ExtractArchive_false_keeps_map env _ _ _ _ h]
  exact AttemptMap.count_assign _ _ _

/-- The dispatch after the confirmation, when the first extraction succeeds. -/
theorem ProcessArchiveFile.extract_of_success (env : Env) (s : State)
    (filePath filename : String)
    (h : (ExtractArchive env
        { s with passwordAttempts := AttemptMap.assign s.passwordAttempts filename 0 }
        filePath "" "").1 = true) :
    ProcessArchiveFile.extract env s filePath filename =
      (ExtractArchive env
        { s with passwordAttempts := AttemptMap.assign s.passwordAttempts filename 0 }
        filePath "" "").2 := by
  simp only [ProcessArchiveFile.extract, h, Bool.not_true, Bool.false_eq_true, if_false]

/-- The dispatch after the confirmation, when the first extraction fails: the
count goes from 0 to 1, the dialog is run once, and one more extraction is
made exactly when the dialog was not cancelled and the password is not empty. -/
theorem ProcessArchiveFile.extract_of_failure (env : Env) (s : State)
    (filePath filename : String) (r q : (Bool × State)) (d : PasswordDialogData × State)
    (hr : r = ExtractArchive env
        { s with passwordAttempts := AttemptMap.assign s.passwordAttempts filename 0 }
        filePath "" "")
    (h : r.1 = false)
    (hd : d = DialogBoxParam env
        { r.2 with passwordAttempts :=
            (AttemptMap.assign (AttemptMap.subscript r.2.passwordAttempts filename) filename 1) }
        { filename := filename })
    (hq : q = ExtractArchive env d.2 filePath d.1.password d.1.twoFactorCode) :
    PromptForPassword env r.2 filename = d ∧
    ProcessArchiveFile.extract env s filePath filename =
      if d.1.cancelled = false ∧ d.1.password ≠ "" then q.2 else d.2 := by
  have hc : AttemptMap.count r.2.passwordAttempts filename = 0 := by
    rw [hr]
    rw [hr] at h
    exact ProcessArchiveFile.count_after_failure env s filePath filename h
  have hlt : AttemptMap.count r.2.passwordAttempts filename < MAX_PASSWORD_ATTEMPTS := by
    rw [hc]; decide
  have hp : PromptForPassword env r.2 filename = d := by
    rw [PromptForPassword_below env r.2 filename hlt, hc, hd]
    rfl
  refine ⟨hp, ?_⟩
  have hfalse : (ExtractArchive env
        { s with passwordAttempts := AttemptMap.assign s.passwordAttempts filename 0 }
        filePath "" "").1 = false := by rw [← hr]; exact h
  simp only [ProcessArchiveFile.extract, hfalse, Bool.not_false, if_true]
  rw [← hr, hp, hq]
  by_cases hcan : d.1.cancelled = true
  · simp [hcan]
  · have hcan2 : d.1.cancelled = false := by simpa using hcan
    by_cases hpw : d.1.password = ""
    · simp [hcan2, hpw]
    · simp [hcan2, hpw]

/-! ## Lemmas on the bound of the counts -/

theorem AttemptMap.find_mem (m : AttemptMap) (k : String) (v : Int)
    (h : AttemptMap.find m k = some v) : (k, v) ∈ m := by
  induction m with
  | nil => simp [AttemptMap.find] at h
  | cons e rest ih =>
    obtain ⟨k1, v1⟩ := e
    rw [AttemptMap.find_cons] at h
    by_cases hk : k1 = k
    · simp only [hk, if_true, Option.some.injEq] at h
      rw [hk, h]
      exact List.mem_cons_self _ _
    · simp only [hk, if_false] at h
      exact List.mem_cons_of_mem _ (ih h)

theorem AttemptMap.count_nonneg (m : AttemptMap) (k : String) (h : AttemptMap.bounded m) :
    0 ≤ AttemptMap.count m k := by
  unfold AttemptMap.count
  cases hf : AttemptMap.find m k with
  | none => simp
  | some v => exact (h (k, v) (AttemptMap.find_mem m k v hf)).1

theorem AttemptMap.bounded_erase (m : AttemptMap) (k : String) (h : AttemptMap.bounded m) :
    AttemptMap.bounded (AttemptMap.erase m k) := by
  intro e he
  exact h e (List.mem_of_mem_filter he)

theorem AttemptMap.bounded_assign (m : AttemptMap) (k : String) (v : Int)
    (h : AttemptMap.bounded m) (h0 : 0 ≤ v) (h3 : v ≤ MAX_PASSWORD_ATTEMPTS) :
    AttemptMap.bounded (AttemptMap.assign m k v) := by
  intro e he
  rcases List.mem_cons.mp he with heq | hmem
  · rw [heq]
    exact ⟨h0, h3⟩
  · exact AttemptMap.bounded_erase m k h e hmem

theorem AttemptMap.bounded_subscript (m : AttemptMap) (k : String) (h : AttemptMap.bounded m) :
    AttemptMap.bounded (AttemptMap.subscript m k) := by
  unfold AttemptMap.subscript
  cases AttemptMap.find m k with
  | some v => exact h
  | none =>
    intro e he
    rcases List.mem_cons.mp he with heq | hmem
    · rw [heq]
      have h3 : (0 : Int) ≤ MAX_PASSWORD_ATTEMPTS := by decide
      exact ⟨le_refl 0, h3⟩
    · exact h e hmem

theorem ExtractArchive_bounded (env : Env) (s : State)
    (archivePath password twoFactorCode : String) (h : AttemptMap.bounded s.passwordAttempts) :
    AttemptMap.bounded
      (ExtractArchive env s archivePath password twoFactorCode).2.passwordAttempts := by
  rw [ExtractArchive_map]
  split
  · exact AttemptMap.bounded_erase _ _ h
  · exact h

theorem PromptForPassword_bounded (env : Env) (s : State) (filename : String)
    (h : AttemptMap.bounded s.passwordAttempts) :
    AttemptMap.bounded (PromptForPassword env s filename).2.passwordAttempts := by
  by_cases hlt : AttemptMap.count s.passwordAttempts filename < MAX_PASSWORD_ATTEMPTS
  · rw [PromptForPassword_below env s filename hlt]
    have h0 := AttemptMap.count_nonneg s.passwordAttempts filename h
    refine AttemptMap.bounded_assign _ _ _ (AttemptMap.bounded_subscript _ _ h) ?_ ?_
    · omega
    · omega
  · rw [PromptForPassword_blocked env s filename (not_lt.mp hlt)]
    exact h

theorem ProcessArchiveFile.extract_bounded (env : Env) (s : State) (filePath filename : String)
    (h : AttemptMap.bounded s.passwordAttempts) :
    AttemptMap.bounded (ProcessArchiveFile.extract env s filePath filename).passwordAttempts := by
  have h0 : AttemptMap.bounded (AttemptMap.assign s.passwordAttempts filename 0) :=
    AttemptMap.bounded_assign _ _ _ h (le_refl 0) (show (0 : Int) ≤ MAX_PASSWORD_ATTEMPTS by decide)
  have h1 := ExtractArchive_bounded env
    { s with passwordAttempts := AttemptMap.assign s.passwordAttempts filename 0 }
    filePath "" "" h0
  unfold ProcessArchiveFile.extract
  simp only []
  split
  · have h2 := PromptForPassword_bounded env _ filename h1
    split
    · exact ExtractArchive_bounded env _ _ _ _ h2
    · exact h2
  · exact h1

theorem ProcessArchiveFile_bounded (env : Env) (s : State) (filePath filename : String)
    (h : AttemptMap.bounded s.passwordAttempts) :
    AttemptMap.bounded (ProcessArchiveFile env s filePath filename).passwordAttempts := by
  unfold ProcessArchiveFile
  simp only []
  split
  · split
    · exact h
    · exact ProcessArchiveFile.extract_bounded env _ filePath filename h
  · exact ProcessArchiveFile.extract_bounded env _ filePath filename h

theorem runCall_bounded (env : Env) (s : State) (c : Call)
    (h : AttemptMap.bounded s.passwordAttempts) :
    AttemptMap.bounded (runCall env s c).passwordAttempts := by
  cases c with
  | processArchiveFile filePath filename => exact ProcessArchiveFile_bounded env s _ _ h
  | promptForPassword filename => exact PromptForPassword_bounded env s _ h
  | extractArchive archivePath password twoFactorCode =>
    exact ExtractArchive_bounded env s _ _ _ h

theorem runCalls_bounded (env : Env) (calls : List Call) :
    ∀ s : State, AttemptMap.bounded s.passwordAttempts →
      AttemptMap.bounded (runCalls env s calls).passwordAttempts := by
  induction calls with
  | nil => intro s h; exact h
  | cons c rest ih =>
    intro s h
    exact ih (runCall env s c) (runCall_bounded env s c h)

/-! ## C11: the counts stay between 0 and 3 -/

/-- C11: starting from a state whose attempt map is empty, after any finite
sequence of `ProcessArchiveFile`, `PromptForPassword` and `ExtractArchive`
calls, with any arguments and any answers of the environment, every entry of
the map holds a count `c` with `0 ≤ c` and `c ≤ 3`. -/
theorem passwordAttempts_bounded (env : Env) (s : State) (calls : List Call)
    (h : s.passwordAttempts = []) :
    ∀ k c, (k, c) ∈ (runCalls env s calls).passwordAttempts → 0 ≤ c ∧ c ≤ 3 := by
  intro k c hmem
  have hb : AttemptMap.bounded s.passwordAttempts := by
    rw [h]
    intro e he
    simp at he
  exact runCalls_bounded env calls s hb (k, c) hmem

/-- C11 at a dispatch of `a.rar` whose extraction fails, followed by four more
prompts: the one entry of the map holds 3. -/
theorem passwordAttempts_bounded_witness :
    (runCalls (listEnv [] [] [] []) (startState "C:\\PeaZip\\peazip.exe" [])
      [Call.processArchiveFile "C:\\d\\a.rar" "a.rar", Call.promptForPassword "a.rar",
       Call.promptForPassword "a.rar", Call.promptForPassword "a.rar",
       Call.promptForPassword "a.rar"]).passwordAttempts = [("a.rar", 3)] ∧
    ((0 : Int) ≤ 3 ∧ (3 : Int) ≤ 3) :=
  ⟨by decide,
   passwordAttempts_bounded (listEnv [] [] [] []) (startState "C:\\PeaZip\\peazip.exe" [])
      [Call.processArchiveFile "C:\\d\\a.rar" "a.rar", Call.promptForPassword "a.rar",
       Call.promptForPassword "a.rar", Call.promptForPassword "a.rar",
       Call.promptForPassword "a.rar"] rfl "a.rar" 3 (by decide)⟩

/-! ## Lemmas on the confirmation -/

/-- A dispatch of a conventional name, or one the user confirms with yes,
continues at line 312 in the state `ProcessArchiveFile.confirmed`. -/
theorem ProcessArchiveFile_of_confirmed (env : Env) (s : State) (filePath filename : String)
    (h : IsConventionalArchive filename = true ∨ env.confirm s.confirms = IDYES) :
    ProcessArchiveFile env s filePath filename =
      ProcessArchiveFile.extract env (ProcessArchiveFile.confirmed s filePath filename)
        filePath filename := by
  by_cases hc : IsConventionalArchive filename = true
  · simp [ProcessArchiveFile, ProcessArchiveFile.confirmed, hc]
  · have hyes : env.confirm s.confirms = IDYES := by
      rcases h with h1 | h2
      · exact absurd h1 hc
      · exact h2
    have hc2 : IsConventionalArchive filename = false := by simpa using hc
    simp [ProcessArchiveFile, ProcessArchiveFile.confirmed, ProcessArchiveFile.message, hc2, hyes]

/-- A dispatch of a name that is not conventional ends at line 308 when the
answer is not yes. -/
theorem ProcessArchiveFile_of_declined (env : Env) (s : State) (filePath filename : String)
    (hc : IsConventionalArchive filename = false) (hno : env.confirm s.confirms ≠ IDYES) :
    ProcessArchiveFile env s filePath filename =
      ProcessArchiveFile.declined s filePath filename := by
  simp [ProcessArchiveFile, ProcessArchiveFile.declined, ProcessArchiveFile.message, hc, hno,
    LogEvent]

/-- What `PromptForPassword` leaves alone. -/
theorem PromptForPassword_frame (env : Env) (s : State) (filename : String) :
    (PromptForPassword env s filename).2.peazipPath = s.peazipPath ∧
    (PromptForPassword env s filename).2.downloadsPath = s.downloadsPath ∧
    (PromptForPassword env s filename).2.opens = s.opens ∧
    (PromptForPassword env s filename).2.confirms = s.confirms ∧
    (PromptForPassword env s filename).2.spawns = s.spawns := by
  by_cases hlt : AttemptMap.count s.passwordAttempts filename < MAX_PASSWORD_ATTEMPTS
  · rw [PromptForPassword_below env s filename hlt]
    exact ⟨rfl, rfl, rfl, rfl, rfl⟩
  · rw [PromptForPassword_blocked env s filename (not_lt.mp hlt)]
    exact ⟨rfl, rfl, rfl, rfl, rfl⟩

/-- The part of the dispatch after the confirmation shows no confirmation box
and starts with the extraction without credentials. -/
theorem ProcessArchiveFile.extract_frame (env : Env) (s : State) (filePath filename : String) :
    (ProcessArchiveFile.extract env s filePath filename).confirms = s.confirms ∧
    (ProcessArchiveFile.extract env s filePath filename).opens = s.opens ∧
    ∃ tail : List Event,
      (ProcessArchiveFile.extract env s filePath filename).trace =
        (ExtractArchive env
          { s with passwordAttempts := AttemptMap.assign s.passwordAttempts filename 0 }
          filePath "" "").2.trace ++ tail := by
  have f1 := ExtractArchive_frame env
    { s with passwordAttempts := AttemptMap.assign s.passwordAttempts filename 0 } filePath "" ""
  by_cases h : (ExtractArchive env
      { s with passwordAttempts := AttemptMap.assign s.passwordAttempts filename 0 }
      filePath "" "").1 = true
  · rw [ProcessArchiveFile.extract_of_success env s filePath filename h]
    exact ⟨f1.2.2.2.1, f1.2.2.1, [], by simp⟩
  · have hf : (ExtractArchive env
        { s with passwordAttempts := AttemptMap.assign s.passwordAttempts filename 0 }
        filePath "" "").1 = false := by simpa using h
    have key : ∀ (r q : Bool × State) (d : PasswordDialogData × State),
        r = ExtractArchive env
          { s with passwordAttempts := AttemptMap.assign s.passwordAttempts filename 0 }
          filePath "" "" →
        r.1 = false →
        d = DialogBoxParam env
          { r.2 with passwordAttempts :=
              (AttemptMap.assign (AttemptMap.subscript r.2.passwordAttempts filename)
                filename 1) }
          { filename := filename } →
        q = ExtractArchive env d.2 filePath d.1.password d.1.twoFactorCode →
        (ProcessArchiveFile.extract env s filePath filename).confirms = s.confirms ∧
        (ProcessArchiveFile.extract env s filePath filename).opens = s.opens ∧
        ∃ tail : List Event,
          (ProcessArchiveFile.extract env s filePath filename).trace = r.2.trace ++ tail := by
      intro r q d hr hfail hd hq
      obtain ⟨_, he⟩ := ProcessArchiveFile.extract_of_failure env s filePath filename
        r q d hr hfail hd hq
      have g1 : r.2.confirms = s.confirms ∧ r.2.opens = s.opens := by
        rw [hr]
        exact ⟨f1.2.2.2.1, f1.2.2.1⟩
      have g2 : d.2.confirms = r.2.confirms ∧ d.2.opens = r.2.opens ∧
          d.2.trace = r.2.trace ++ [Event.passwordDialog filename] := by
        rw [hd]
        exact ⟨rfl, rfl, rfl⟩
      have f2 := ExtractArchive_frame env d.2 filePath d.1.password d.1.twoFactorCode
      obtain ⟨tail, ht⟩ :=
        ExtractArchive_trace_extends env d.2 filePath d.1.password d.1.twoFactorCode
      rw [← hq] at f2 ht
      rw [he]
      split
      · refine ⟨?_, ?_, [Event.passwordDialog filename] ++ tail, ?_⟩
        · rw [f2.2.2.2.1, g2.1, g1.1]
        · rw [f2.2.2.1, g2.2.1, g1.2]
        · rw [ht, g2.2.2, List.append_assoc]
      · refine ⟨?_, ?_, [Event.passwordDialog filename], g2.2.2⟩
        · rw [g2.1, g1.1]
        · rw [g2.2.1, g1.2]
    exact key _ _ _ rfl hf rfl rfl

/-! ## C14: the confirmation gate -/

/-- C14: for a name that is not conventional and an answer other than yes,
`ProcessArchiveFile` only records the call, shows the confirmation box and
writes a log line: no extraction, no password dialog, the attempt map as it
was. For a conventional name no confirmation is asked and the events of the
call start with those of the extraction without credentials. -/
theorem ProcessArchiveFile_confirmation (env : Env) (s : State) (filePath filename : String) :
    (IsConventionalArchive filename = false → env.confirm s.confirms ≠ IDYES →
      ProcessArchiveFile env s filePath filename =
        { s with
          confirms := s.confirms + 1,
          trace := s.trace ++
            [Event.processArchiveFile filePath filename,
             Event.confirmBox ("Do you want to extract the archive: " ++ filename ++ "?\n\n" ++
               "File path: " ++ filePath ++ "\n" ++ "This is a non-standard archive format."),
             Event.log ("User declined to extract: " ++ filename)] } ∧
      (ProcessArchiveFile env s filePath filename).passwordAttempts = s.passwordAttempts ∧
      AttemptMap.find (ProcessArchiveFile env s filePath filename).passwordAttempts filename =
        AttemptMap.find s.passwordAttempts filename ∧
      (ProcessArchiveFile env s filePath filename).spawns = s.spawns ∧
      (ProcessArchiveFile env s filePath filename).dialogs = s.dialogs) ∧
    (IsConventionalArchive filename = true →
      (ProcessArchiveFile env s filePath filename).confirms = s.confirms ∧
      ∃ tail : List Event,
        (ProcessArchiveFile env s filePath filename).trace =
          (ExtractArchive env
            { s with
              passwordAttempts := AttemptMap.assign s.passwordAttempts filename 0,
              trace := s.trace ++ [Event.processArchiveFile filePath filename] }
            filePath "" "").2.trace ++ tail) := by
  constructor
  · intro hc hno
    rw [ProcessArchiveFile_of_declined env s filePath filename hc hno]
    exact ⟨rfl, rfl, rfl, rfl, rfl⟩
  · intro hc
    rw [ProcessArchiveFile_of_confirmed env s filePath filename (Or.inl hc)]
    obtain ⟨h1, _, tail, h3⟩ := ProcessArchiveFile.extract_frame env
      (ProcessArchiveFile.confirmed s filePath filename) filePath filename
    have hconf : ProcessArchiveFile.confirmed s filePath filename =
        { s with trace := s.trace ++ [Event.processArchiveFile filePath filename] } := by
      simp [ProcessArchiveFile.confirmed, hc]
    rw [hconf] at h1 h3
    rw [hconf]
    exact ⟨h1, tail, h3⟩

/-- C14 at `data.xyz999.001` with the answer no (the map stays empty) and at
`report.zip` (no confirmation is asked). -/
theorem ProcessArchiveFile_confirmation_witness :
    (ProcessArchiveFile (listEnv [] [7] [] [ToolOutcome.mk true 0 0])
      (startState "C:\\PeaZip\\peazip.exe" [])
      "C:\\d\\data.xyz999.001" "data.xyz999.001").passwordAttempts = [] ∧
    (ProcessArchiveFile (listEnv [] [7] [] [ToolOutcome.mk true 0 0])
      (startState "C:\\PeaZip\\peazip.exe" [])
      "C:\\d\\report.zip" "report.zip").confirms = 0 :=
  ⟨((ProcessArchiveFile_confirmation (listEnv [] [7] [] [ToolOutcome.mk true 0 0])
      (startState "C:\\PeaZip\\peazip.exe" [])
      "C:\\d\\data.xyz999.001" "data.xyz999.001").1 (by decide) (by decide)).2.1,
   ((ProcessArchiveFile_confirmation (listEnv [] [7] [] [ToolOutcome.mk true 0 0])
      (startState "C:\\PeaZip\\peazip.exe" [])
      "C:\\d\\report.zip" "report.zip").2 (by decide)).1⟩

/-! ## C13: what follows the password dialog -/

theorem ProcessArchiveFile.confirmed_map (s : State) (filePath filename : String) :
    (ProcessArchiveFile.confirmed s filePath filename).passwordAttempts = s.passwordAttempts := by
  unfold ProcessArchiveFile.confirmed
  split <;> rfl

/-- C13, as the code has it: in a dispatch that reaches the password dialog
(the extraction without credentials failed), the dialog is shown, and then:
when the user cancelled, nothing more is done; when the user did not cancel
and the password is not empty, `ExtractArchive` is called once with the
password and the code of the dialog and the dispatch ends with it; when the
user did not cancel and the password is empty, nothing more is done. -/
theorem ProcessArchiveFile_after_prompt (env : Env) (s : State) (filePath filename : String)
    (r q : Bool × State) (d : PasswordDialogData × State)
    (hpass : IsConventionalArchive filename = true ∨ env.confirm s.confirms = IDYES)
    (hr : r = ExtractArchive env
      { ProcessArchiveFile.confirmed s filePath filename with
        passwordAttempts := AttemptMap.assign s.passwordAttempts filename 0 }
      filePath "" "")
    (hfail : r.1 = false)
    (hd : d = PromptForPassword env r.2 filename)
    (hq : q = ExtractArchive env d.2 filePath d.1.password d.1.twoFactorCode) :
    d.2.trace = r.2.trace ++ [Event.passwordDialog filename] ∧
    d.1 = PasswordDialogProc { filename := filename } (env.dialog r.2.dialogs) ∧
    (d.1.cancelled = true → ProcessArchiveFile env s filePath filename = d.2) ∧
    (d.1.cancelled = false → d.1.password ≠ "" →
      ProcessArchiveFile env s filePath filename = q.2) ∧
    (d.1.cancelled = false → d.1.password = "" →
      ProcessArchiveFile env s filePath filename = d.2) := by
  rw [← ProcessArchiveFile.confirmed_map s filePath filename] at hr
  obtain ⟨hp, he⟩ := ProcessArchiveFile.extract_of_failure env
    (ProcessArchiveFile.confirmed s filePath filename) filePath filename r _ _
    hr hfail rfl rfl
  rw [← hd] at hp
  rw [← hp, ← hq] at he
  rw [ProcessArchiveFile_of_confirmed env s filePath filename hpass, he]
  refine ⟨by rw [hp]; rfl, by rw [hp]; rfl, ?_, ?_, ?_⟩
  · intro hc
    simp [hc]
  · intro hc hpw
    simp [hc, hpw]
  · intro hc hpw
    simp [hpw]

/-- C13 fails as stated: the first extraction of `a.zip` ends with exit code
2, the user presses OK with an empty password and a second-factor code, so
`cancelled` is false, and the dispatch ends after the dialog: one process was
created, none with the code. -/
theorem ProcessArchiveFile_after_prompt_counterexample :
    PasswordDialogProc { filename := "a.zip" }
        ((listEnv [] [] [DialogAction.ok "" "123456"]
          [ToolOutcome.mk true 0 2, ToolOutcome.mk true 0 0]).dialog 0) =
      { filename := "a.zip", password := "", twoFactorCode := "123456", cancelled := false } ∧
    (ProcessArchiveFile
      (listEnv [] [] [DialogAction.ok "" "123456"]
        [ToolOutcome.mk true 0 2, ToolOutcome.mk true 0 0])
      (startState "C:\\PeaZip\\peazip.exe" []) "C:\\d\\a.zip" "a.zip").trace =
      [Event.processArchiveFile "C:\\d\\a.zip" "a.zip",
       Event.log "Executing: \"C:\\PeaZip\\peazip.exe\" -ext2folder -o+ \"C:\\d\\a.zip\"",
       Event.createProcess "\"C:\\PeaZip\\peazip.exe\" -ext2folder -o+ \"C:\\d\\a.zip\"",
       Event.log "Extraction failed with exit code: 2",
       Event.passwordDialog "a.zip"] ∧
    (ProcessArchiveFile
      (listEnv [] [] [DialogAction.ok "" "123456"]
        [ToolOutcome.mk true 0 2, ToolOutcome.mk true 0 0])
      (startState "C:\\PeaZip\\peazip.exe" []) "C:\\d\\a.zip" "a.zip").spawns = 1 := by
  decide

/-- C13 amended, at a dispatch of `a.zip` where the user enters the password
`secret`: a second process is created, with the password on its command line. -/
theorem ProcessArchiveFile_after_prompt_witness :
    (ProcessArchiveFile
      (listEnv [] [] [DialogAction.ok "secret" ""]
        [ToolOutcome.mk true 0 2, ToolOutcome.mk true 0 0])
      (startState "C:\\PeaZip\\peazip.exe" []) "C:\\d\\a.zip" "a.zip").spawns = 2 := by
  have h := ProcessArchiveFile_after_prompt
    (listEnv [] [] [DialogAction.ok "secret" ""]
      [ToolOutcome.mk true 0 2, ToolOutcome.mk true 0 0])
    (startState "C:\\PeaZip\\peazip.exe" []) "C:\\d\\a.zip" "a.zip" _ _ _
    (by decide) rfl (by decide) rfl rfl
  rw [h.2.2.2.1 (by decide) (by decide)]
  decide

/-! ## C12: the retry after a failed extraction with credentials -/

theorem ProcessArchiveFile.confirmed_facts (s : State) (filePath filename : String) :
    (ProcessArchiveFile.confirmed s filePath filename).dialogs = s.dialogs ∧
    errorBoxes (ProcessArchiveFile.confirmed s filePath filename).trace = errorBoxes s.trace := by
  unfold ProcessArchiveFile.confirmed
  split
  · exact ⟨rfl, by simp [errorBoxes_append, errorBoxes]⟩
  · exact ⟨rfl, by simp [errorBoxes_append, errorBoxes]⟩

/-- The limit branch of `PromptForPassword` (lines 336-344) is not reached from
`ProcessArchiveFile`: line 313 has stored 0 before the one call of line 318,
so in a dispatch whose extraction without credentials fails the count is 0 at
the gate, the dialog is run, and the dispatch ends right after the dialog or
after the one extraction of line 320, whose result is dropped. -/
theorem ProcessArchiveFile.limit_not_reached (env : Env) (s : State) (filePath filename : String)
    (r q : Bool × State) (d : PasswordDialogData × State)
    (hpass : IsConventionalArchive filename = true ∨ env.confirm s.confirms = IDYES)
    (hr : r = ExtractArchive env
      { ProcessArchiveFile.confirmed s filePath filename with
        passwordAttempts := AttemptMap.assign s.passwordAttempts filename 0 }
      filePath "" "")
    (hfail : r.1 = false)
    (hd : d = PromptForPassword env r.2 filename)
    (hq : q = ExtractArchive env d.2 filePath d.1.password d.1.twoFactorCode) :
    AttemptMap.count r.2.passwordAttempts filename = 0 ∧
    d.2.trace = r.2.trace ++ [Event.passwordDialog filename] ∧
    AttemptMap.count d.2.passwordAttempts filename = 1 ∧
    (ProcessArchiveFile env s filePath filename = d.2 ∨
     ProcessArchiveFile env s filePath filename = q.2) ∧
    (ProcessArchiveFile env s filePath filename).dialogs = s.dialogs + 1 ∧
    errorBoxes (ProcessArchiveFile env s filePath filename).trace = errorBoxes s.trace := by
  rw [← ProcessArchiveFile.confirmed_map s filePath filename] at hr
  obtain ⟨hp, he⟩ := ProcessArchiveFile.extract_of_failure env
    (ProcessArchiveFile.confirmed s filePath filename) filePath filename r _ _
    hr hfail rfl rfl
  rw [← hd] at hp
  rw [← hp, ← hq] at he
  have hc0 : AttemptMap.count r.2.passwordAttempts filename = 0 := by
    rw [hr]
    rw [hr] at hfail
    exact ProcessArchiveFile.count_after_failure env _ filePath filename hfail
  have fr := ExtractArchive_frame env
    { ProcessArchiveFile.confirmed s filePath filename with
      passwordAttempts :=
        AttemptMap.assign (ProcessArchiveFile.confirmed s filePath filename).passwordAttempts
          filename 0 } filePath "" ""
  have er := ExtractArchive_errorBoxes env
    { ProcessArchiveFile.confirmed s filePath filename with
      passwordAttempts :=
        AttemptMap.assign (ProcessArchiveFile.confirmed s filePath filename).passwordAttempts
          filename 0 } filePath "" ""
  rw [← hr] at fr er
  have hcf := ProcessArchiveFile.confirmed_facts s filePath filename
  have hd1 : d.2.trace = r.2.trace ++ [Event.passwordDialog filename] := by rw [hp]; rfl
  have hd2 : d.2.dialogs = r.2.dialogs + 1 := by rw [hp]; rfl
  have hd3 : AttemptMap.count d.2.passwordAttempts filename = 1 := by
    rw [hp]
    exact AttemptMap.count_assign _ _ _
  have fq := ExtractArchive_frame env d.2 filePath d.1.password d.1.twoFactorCode
  have eq := ExtractArchive_errorBoxes env d.2 filePath d.1.password d.1.twoFactorCode
  rw [← hq] at fq eq
  have hdd : d.2.dialogs = s.dialogs + 1 := by
    rw [hd2, fr.2.2.2.2]
    exact congrArg (fun n => n + 1) hcf.1
  have hde : errorBoxes d.2.trace = errorBoxes s.trace := by
    have hone : errorBoxes [Event.passwordDialog filename] = [] := rfl
    rw [hd1, errorBoxes_append, er, hone, List.append_nil]
    exact hcf.2
  rw [ProcessArchiveFile_of_confirmed env s filePath filename hpass, he]
  refine ⟨hc0, hd1, hd3, ?_, ?_, ?_⟩
  · split
    · exact Or.inr rfl
    · exact Or.inl rfl
  · split
    · rw [fq.2.2.2.2]
      exact hdd
    · exact hdd
  · split
    · rw [eq]
      exact hde
    · exact hde

/-- C12 at the failing input: the archiver always exits with code 2 and the
user enters a wrong password each time. The code shows one dialog in one
dispatch of `a.zip`, creates two processes and returns although the extraction
with credentials failed; four dispatches of `a.zip` show four dialogs and no
error box and leave the count at 1. The claim has a new prompt after each
failed extraction with credentials and the fourth attempt blocked with an
error notification and no dialog. -/
theorem ProcessArchiveFile_retry_missing :
    (runCalls
      (listEnv [] []
        [DialogAction.ok "w1" "", DialogAction.ok "w2" "", DialogAction.ok "w3" "",
         DialogAction.ok "w4" ""]
        (List.replicate 8 (ToolOutcome.mk true 0 2)))
      (startState "C:\\PeaZip\\peazip.exe" [])
      [Call.processArchiveFile "C:\\d\\a.zip" "a.zip"]).dialogs = 1 ∧
    (runCalls
      (listEnv [] []
        [DialogAction.ok "w1" "", DialogAction.ok "w2" "", DialogAction.ok "w3" "",
         DialogAction.ok "w4" ""]
        (List.replicate 8 (ToolOutcome.mk true 0 2)))
      (startState "C:\\PeaZip\\peazip.exe" [])
      [Call.processArchiveFile "C:\\d\\a.zip" "a.zip"]).spawns = 2 ∧
    (runCalls
      (listEnv [] []
        [DialogAction.ok "w1" "", DialogAction.ok "w2" "", DialogAction.ok "w3" "",
         DialogAction.ok "w4" ""]
        (List.replicate 8 (ToolOutcome.mk true 0 2)))
      (startState "C:\\PeaZip\\peazip.exe" [])
      (List.replicate 4 (Call.processArchiveFile "C:\\d\\a.zip" "a.zip"))).dialogs = 4 ∧
    errorBoxes (runCalls
      (listEnv [] []
        [DialogAction.ok "w1" "", DialogAction.ok "w2" "", DialogAction.ok "w3" "",
         DialogAction.ok "w4" ""]
        (List.replicate 8 (ToolOutcome.mk true 0 2)))
      (startState "C:\\PeaZip\\peazip.exe" [])
      (List.replicate 4 (Call.processArchiveFile "C:\\d\\a.zip" "a.zip"))).trace = [] ∧
    (runCalls
      (listEnv [] []
        [DialogAction.ok "w1" "", DialogAction.ok "w2" "", DialogAction.ok "w3" "",
         DialogAction.ok "w4" ""]
        (List.replicate 8 (ToolOutcome.mk true 0 2)))
      (startState "C:\\PeaZip\\peazip.exe" [])
      (List.replicate 4 (Call.processArchiveFile "C:\\d\\a.zip" "a.zip"))).passwordAttempts =
      [("a.zip", 1)] := by
  decide

/-! ## Lemmas on a dispatch run with another attempt map -/

theorem AttemptMap.find_erase (m : AttemptMap) (k k2 : String) :
    AttemptMap.find (AttemptMap.erase m k) k2 =
      if k2 = k then none else AttemptMap.find m k2 := by
  by_cases h : k2 = k
  · rw [h, AttemptMap.find_erase_self]
    simp
  · rw [AttemptMap.find_erase_other m k k2 h]
    simp [h]

theorem AttemptMap.find_assign (m : AttemptMap) (k : String) (v : Int) :
    AttemptMap.find (AttemptMap.assign m k v) k = some v := by
  simp [AttemptMap.assign, AttemptMap.find_cons]

theorem AttemptMap.count_eq_of_find_eq (m1 m2 : AttemptMap) (k : String)
    (h : AttemptMap.find m1 k = AttemptMap.find m2 k) :
    AttemptMap.count m1 k = AttemptMap.count m2 k := by
  simp only [AttemptMap.count, h]

/-- With another map that holds the same entry for `filename`,
`ExtractArchive` gives the same result and the same state but for the map,
and the two maps still hold the same entry for `filename`. -/
theorem ExtractArchive_withMap_find (env : Env) (s : State) (m : AttemptMap)
    (archivePath password twoFactorCode filename : String)
    (h : AttemptMap.find m filename = AttemptMap.find s.passwordAttempts filename) :
    ∃ m1 : AttemptMap,
      ExtractArchive env { s with passwordAttempts := m } archivePath password twoFactorCode =
        ((ExtractArchive env s archivePath password twoFactorCode).1,
         { (ExtractArchive env s archivePath password twoFactorCode).2 with
            passwordAttempts := m1 }) ∧
      AttemptMap.find m1 filename =
        AttemptMap.find
          (ExtractArchive env s archivePath password twoFactorCode).2.passwordAttempts
          filename := by
  refine ⟨_, ExtractArchive_withMap env s m archivePath password twoFactorCode, ?_⟩
  rw [ExtractArchive_map]
  split
  · rw [AttemptMap.find_erase, AttemptMap.find_erase, h]
  · exact h

/-- With another map that holds the same entry for `filename`,
`PromptForPassword` returns the same data and the same state but for the map,
and the two maps still hold the same entry for `filename`. -/
theorem PromptForPassword_withMap_find (env : Env) (s : State) (m : AttemptMap)
    (filename : String)
    (h : AttemptMap.find m filename = AttemptMap.find s.passwordAttempts filename) :
    ∃ m1 : AttemptMap,
      PromptForPassword env { s with passwordAttempts := m } filename =
        ((PromptForPassword env s filename).1,
         { (PromptForPassword env s filename).2 with passwordAttempts := m1 }) ∧
      AttemptMap.find m1 filename =
        AttemptMap.find (PromptForPassword env s filename).2.passwordAttempts filename := by
  have hc : AttemptMap.count m filename = AttemptMap.count s.passwordAttempts filename :=
    AttemptMap.count_eq_of_find_eq _ _ _ h
  by_cases hlt : AttemptMap.count s.passwordAttempts filename < MAX_PASSWORD_ATTEMPTS
  · have hlt2 : AttemptMap.count ({ s with passwordAttempts := m } : State).passwordAttempts
        filename < MAX_PASSWORD_ATTEMPTS := by
      rw [← hc] at hlt
      exact hlt
    rw [PromptForPassword_below env s filename hlt,
      PromptForPassword_below env { s with passwordAttempts := m } filename hlt2]
    refine ⟨AttemptMap.assign (AttemptMap.subscript m filename) filename
      (AttemptMap.count m filename + 1), rfl, ?_⟩
    simp only [DialogBoxParam, AttemptMap.find_assign, hc]
  · have hge := not_lt.mp hlt
    have hge2 : AttemptMap.count ({ s with passwordAttempts := m } : State).passwordAttempts
        filename ≥ MAX_PASSWORD_ATTEMPTS := by
      rw [← hc] at hge
      exact hge
    rw [PromptForPassword_blocked env s filename hge,
      PromptForPassword_blocked env { s with passwordAttempts := m } filename hge2]
    exact ⟨m, rfl, h⟩

/-- With another map in the state, the part of the dispatch after the
confirmation ends in the same state but for the map, and the two maps hold
the same entry for the dispatched file name. -/
theorem ProcessArchiveFile.extract_withMap (env : Env) (s : State) (m : AttemptMap)
    (filePath filename : String) :
    ∃ m1 : AttemptMap,
      ProcessArchiveFile.extract env { s with passwordAttempts := m } filePath filename =
        { ProcessArchiveFile.extract env s filePath filename with passwordAttempts := m1 } ∧
      AttemptMap.find m1 filename =
        AttemptMap.find (ProcessArchiveFile.extract env s filePath filename).passwordAttempts
          filename := by
  have e0 : AttemptMap.find (AttemptMap.assign m filename 0) filename =
      AttemptMap.find
        ({ s with passwordAttempts := AttemptMap.assign s.passwordAttempts filename 0 } :
          State).passwordAttempts filename := by
    rw [AttemptMap.find_assign]
    exact (AttemptMap.find_assign _ _ _).symm
  obtain ⟨m1, e1, f1⟩ := ExtractArchive_withMap_find env
    { s with passwordAttempts := AttemptMap.assign s.passwordAttempts filename 0 }
    (AttemptMap.assign m filename 0) filePath "" "" filename e0
  have e1b : ExtractArchive env
      { ({ s with passwordAttempts := m } : State) with
        passwordAttempts :=
          AttemptMap.assign ({ s with passwordAttempts := m } : State).passwordAttempts
            filename 0 } filePath "" "" =
      ((ExtractArchive env
          { s with passwordAttempts := AttemptMap.assign s.passwordAttempts filename 0 }
          filePath "" "").1,
       { (ExtractArchive env
          { s with passwordAttempts := AttemptMap.assign s.passwordAttempts filename 0 }
          filePath "" "").2 with passwordAttempts := m1 }) := e1
  unfold ProcessArchiveFile.extract
  simp only []
  rw [e1b]
  simp only []
  by_cases hr : (ExtractArchive env
      { s with passwordAttempts := AttemptMap.assign s.passwordAttempts filename 0 }
      filePath "" "").1 = true
  · simp only [hr, Bool.not_true, Bool.false_eq_true, if_false]
    exact ⟨m1, rfl, f1⟩
  · have hr2 : (ExtractArchive env
        { s with passwordAttempts := AttemptMap.assign s.passwordAttempts filename 0 }
        filePath "" "").1 = false := by simpa using hr
    simp only [hr2, Bool.not_false, if_true]
    obtain ⟨m2, e2, f2⟩ := PromptForPassword_withMap_find env
      (ExtractArchive env
        { s with passwordAttempts := AttemptMap.assign s.passwordAttempts filename 0 }
        filePath "" "").2 m1 filename f1
    rw [e2]
    simp only []
    split
    · obtain ⟨m3, e3, f3⟩ := ExtractArchive_withMap_find env
        (PromptForPassword env
          (ExtractArchive env
            { s with passwordAttempts := AttemptMap.assign s.passwordAttempts filename 0 }
            filePath "" "").2 filename).2 m2 filePath
        (PromptForPassword env
          (ExtractArchive env
            { s with passwordAttempts := AttemptMap.assign s.passwordAttempts filename 0 }
            filePath "" "").2 filename).1.password
        (PromptForPassword env
          (ExtractArchive env
            { s with passwordAttempts := AttemptMap.assign s.passwordAttempts filename 0 }
            filePath "" "").2 filename).1.twoFactorCode filename f2
      rw [e3]
      exact ⟨m3, rfl, f3⟩
    · exact ⟨m2, rfl, f2⟩

theorem ProcessArchiveFile.confirmed_withMap (s : State) (m : AttemptMap)
    (filePath filename : String) :
    ProcessArchiveFile.confirmed { s with passwordAttempts := m } filePath filename =
      { ProcessArchiveFile.confirmed s filePath filename with passwordAttempts := m } := by
  unfold ProcessArchiveFile.confirmed
  split <;> rfl

/-! ## C15: a dispatch does not depend on the attempt map it finds -/

/-- C15, as the code has it: run from the same state with another attempt
map, `ProcessArchiveFile` records the same events and consults the
environment the same number of times; when the dispatch is not declined (the
name is conventional or the answer is yes) the two final maps hold the same
entry for the file name; when it is declined each map is left as it was. -/
theorem ProcessArchiveFile_other_map (env : Env) (s : State) (m : AttemptMap)
    (filePath filename : String) :
    (ProcessArchiveFile env { s with passwordAttempts := m } filePath filename).trace =
      (ProcessArchiveFile env s filePath filename).trace ∧
    (ProcessArchiveFile env { s with passwordAttempts := m } filePath filename).opens =
      (ProcessArchiveFile env s filePath filename).opens ∧
    (ProcessArchiveFile env { s with passwordAttempts := m } filePath filename).confirms =
      (ProcessArchiveFile env s filePath filename).confirms ∧
    (ProcessArchiveFile env { s with passwordAttempts := m } filePath filename).dialogs =
      (ProcessArchiveFile env s filePath filename).dialogs ∧
    (ProcessArchiveFile env { s with passwordAttempts := m } filePath filename).spawns =
      (ProcessArchiveFile env s filePath filename).spawns ∧
    ((IsConventionalArchive filename = true ∨ env.confirm s.confirms = IDYES) →
      AttemptMap.find
        (ProcessArchiveFile env { s with passwordAttempts := m } filePath
          filename).passwordAttempts filename =
      AttemptMap.find (ProcessArchiveFile env s filePath filename).passwordAttempts filename) ∧
    (IsConventionalArchive filename = false → env.confirm s.confirms ≠ IDYES →
      (ProcessArchiveFile env { s with passwordAttempts := m } filePath
        filename).passwordAttempts = m ∧
      (ProcessArchiveFile env s filePath filename).passwordAttempts = s.passwordAttempts) := by
  by_cases hpass : IsConventionalArchive filename = true ∨ env.confirm s.confirms = IDYES
  · have hpass2 : IsConventionalArchive filename = true ∨
        env.confirm ({ s with passwordAttempts := m } : State).confirms = IDYES := hpass
    obtain ⟨m1, e1, f1⟩ := ProcessArchiveFile.extract_withMap env
      (ProcessArchiveFile.confirmed s filePath filename) m filePath filename
    rw [ProcessArchiveFile_of_confirmed env s filePath filename hpass,
      ProcessArchiveFile_of_confirmed env _ filePath filename hpass2,
      ProcessArchiveFile.confirmed_withMap, e1]
    refine ⟨rfl, rfl, rfl, rfl, rfl, fun _ => f1, ?_⟩
    intro hc hno
    rcases hpass with h1 | h2
    · rw [hc] at h1
      exact absurd h1 (by simp)
    · exact absurd h2 hno
  · have hc : IsConventionalArchive filename = false := by
      cases h : IsConventionalArchive filename with
      | false => rfl
      | true => exact absurd (Or.inl h) hpass
    have hno : env.confirm s.confirms ≠ IDYES := fun h => hpass (Or.inr h)
    have hno2 : env.confirm ({ s with passwordAttempts := m } : State).confirms ≠ IDYES := hno
    rw [ProcessArchiveFile_of_declined env s filePath filename hc hno,
      ProcessArchiveFile_of_declined env _ filePath filename hc hno2]
    exact ⟨rfl, rfl, rfl, rfl, rfl, fun h => absurd h hpass, fun _ _ => ⟨rfl, rfl⟩⟩

/-- C15 fails as stated. A first dispatch of `x.iso` (answer yes, the archiver
exits with code 2, the dialog is cancelled) leaves the entry 1. A dispatch of
`x.iso` that is declined records the same three events whether the map is
empty or holds that entry, and ends without an entry in one case and with the
entry 1 in the other. -/
theorem ProcessArchiveFile_other_map_counterexample :
    (ProcessArchiveFile (listEnv [] [6] [DialogAction.cancel] [ToolOutcome.mk true 0 2])
      (startState "C:\\PeaZip\\peazip.exe" []) "C:\\d\\x.iso" "x.iso").passwordAttempts =
      [("x.iso", 1)] ∧
    (ProcessArchiveFile (listEnv [] [7] [] [])
      (startState "C:\\PeaZip\\peazip.exe" []) "C:\\d\\x.iso" "x.iso").trace =
    (ProcessArchiveFile (listEnv [] [7] [] [])
      (startState "C:\\PeaZip\\peazip.exe" [("x.iso", 1)]) "C:\\d\\x.iso" "x.iso").trace ∧
    AttemptMap.find (ProcessArchiveFile (listEnv [] [7] [] [])
      (startState "C:\\PeaZip\\peazip.exe" []) "C:\\d\\x.iso"
      "x.iso").passwordAttempts "x.iso" = none ∧
    AttemptMap.find (ProcessArchiveFile (listEnv [] [7] [] [])
      (startState "C:\\PeaZip\\peazip.exe" [("x.iso", 1)]) "C:\\d\\x.iso"
      "x.iso").passwordAttempts "x.iso" = some 1 := by
  decide

/-- C15 amended, at two dispatches of `a.zip` with a successful archiver, one
from an empty map and one from a map with the entry 3: both end without an
entry for `a.zip`. -/
theorem ProcessArchiveFile_other_map_witness :
    AttemptMap.find (ProcessArchiveFile (listEnv [] [] [] [ToolOutcome.mk true 0 0])
      { startState "C:\\PeaZip\\peazip.exe" [] with passwordAttempts := [("a.zip", 3)] }
      "C:\\d\\a.zip" "a.zip").passwordAttempts "a.zip" =
    AttemptMap.find (ProcessArchiveFile (listEnv [] [] [] [ToolOutcome.mk true 0 0])
      (startState "C:\\PeaZip\\peazip.exe" [])
      "C:\\d\\a.zip" "a.zip").passwordAttempts "a.zip" :=
  (ProcessArchiveFile_other_map (listEnv [] [] [] [ToolOutcome.mk true 0 0])
    (startState "C:\\PeaZip\\peazip.exe" []) [("a.zip", 3)]
    "C:\\d\\a.zip" "a.zip").2.2.2.2.2.1 (Or.inl (by decide))

/-! ## Lemmas on reads inside the buffer -/

theorem readByte_of_lt (buffer : List Nat) (i : Nat) (h : i < buffer.length) :
    ∃ v, readByte buffer i = some v := by
  unfold readByte
  rw [List.get?_eq_get h]
  exact ⟨_, rfl⟩

theorem readWchar_of_bound (buffer : List Nat) (i : Nat) (h : i + 2 ≤ buffer.length) :
    ∃ v, readWchar buffer i = some v := by
  obtain ⟨b0, h0⟩ := readByte_of_lt buffer i (by omega)
  obtain ⟨b1, h1⟩ := readByte_of_lt buffer (i + 1) (by omega)
  exact ⟨b0 + 256 * b1, by simp only [readWchar, h0, h1]⟩

theorem readDword_of_bound (buffer : List Nat) (i : Nat) (h : i + 4 ≤ buffer.length) :
    ∃ v, readDword buffer i = some v := by
  obtain ⟨lo, h0⟩ := readWchar_of_bound buffer i (by omega)
  obtain ⟨hi, h1⟩ := readWchar_of_bound buffer (i + 2) (by omega)
  exact ⟨lo + 65536 * hi, by simp only [readDword, h0, h1]⟩

theorem readWString_of_bound (buffer : List Nat) :
    ∀ (n i : Nat), i + 2 * n ≤ buffer.length → ∃ w, readWString buffer i n = some w := by
  intro n
  induction n with
  | zero => intro i _; exact ⟨[], rfl⟩
  | succ n ih =>
    intro i h
    obtain ⟨c, hc⟩ := readWchar_of_bound buffer i (by omega)
    obtain ⟨rest, hrest⟩ := ih (i + 2) (by omega)
    exact ⟨c :: rest, by simp only [readWString, hc, hrest]⟩

theorem recordInside_bound (buffer : List Nat) (pos : Nat) (h : recordInside buffer pos = true) :
    ∃ fileNameLength, readDword buffer (pos + 8) = some fileNameLength ∧
      pos + 12 + fileNameLength ≤ buffer.length := by
  unfold recordInside at h
  cases hl : readDword buffer (pos + 8) with
  | none => rw [hl] at h; simp at h
  | some len =>
    rw [hl] at h
    exact ⟨len, rfl, by simpa using h⟩

/-- The loop body at a record that lies inside the buffer makes no read
outside the buffer, and the visit it reports is at that offset. -/
theorem ProcessDirectoryChanges.step_of_inside (env : Env) (buffer : List Nat) (pos : Nat)
    (s : State) (h : recordInside buffer pos = true) :
    ∃ (v : Visit) (s1 : State),
      ProcessDirectoryChanges.step env buffer pos s = some (v, s1) ∧ v.pos = pos := by
  obtain ⟨len, hlen, hb⟩ := recordInside_bound buffer pos h
  obtain ⟨action, ha⟩ := readDword_of_bound buffer (pos + 4) (by omega)
  obtain ⟨w, hw⟩ := readWString_of_bound buffer (len / 2) (pos + 12) (by omega)
  by_cases hrel : action = FILE_ACTION_ADDED ∨ action = FILE_ACTION_RENAMED_NEW_NAME
  · exact ⟨Visit.mk pos action (some w), ProcessDirectoryChanges.onNewFile env s w,
      by simp only [ProcessDirectoryChanges.step, ha, hrel, if_true, hlen, hw], rfl⟩
  · exact ⟨Visit.mk pos action none, s,
      by simp only [ProcessDirectoryChanges.step, ha, hrel, if_false], rfl⟩

/-- Along a chain of records inside the buffer the walk returns the same
visits and state for every iteration bound above `buffer.length - pos`; the
visited offsets increase strictly, start at or after `pos`, and each visited
record lies inside the buffer. -/
theorem ProcessDirectoryChanges.loop_of_chain (env : Env) (buffer : List Nat) (pos : Nat)
    (h : ChainFrom buffer pos) :
    ∀ s : State, ∃ (visits : List Visit) (s1 : State),
      (∀ fuel, buffer.length < fuel + pos →
        ProcessDirectoryChanges.loop env buffer fuel pos s = some (visits, s1)) ∧
      (visits.map Visit.pos).Pairwise (fun a b => a < b) ∧
      (visits.map Visit.pos).head? = some pos ∧
      (∀ v ∈ visits, pos ≤ v.pos ∧ recordInside buffer v.pos = true) := by
  induction h with
  | last pos hin h0 =>
    intro s
    obtain ⟨v, s1, hstep, hv⟩ := ProcessDirectoryChanges.step_of_inside env buffer pos s hin
    obtain ⟨len, _, hb⟩ := recordInside_bound buffer pos hin
    refine ⟨[v], s1, ?_, by simp, by simp [hv], ?_⟩
    · intro fuel hfuel
      cases fuel with
      | zero => omega
      | succ fuel => simp only [ProcessDirectoryChanges.loop, hstep, h0, if_true]
    · intro x hx
      rw [List.mem_singleton] at hx
      rw [hx, hv]
      exact ⟨le_refl _, hin⟩
  | next pos off hin hoff hpos _ ih =>
    intro s
    obtain ⟨v, s1, hstep, hv⟩ := ProcessDirectoryChanges.step_of_inside env buffer pos s hin
    obtain ⟨len, _, hb⟩ := recordInside_bound buffer pos hin
    obtain ⟨visits, s2, hloop, hsorted, hhead, hall⟩ := ih s1
    have hne : ¬ off = 0 := by omega
    refine ⟨v :: visits, s2, ?_, ?_, by simp [hv], ?_⟩
    · intro fuel hfuel
      cases fuel with
      | zero => omega
      | succ fuel =>
        have hl := hloop fuel (by omega)
        simp only [ProcessDirectoryChanges.loop, hstep, hoff, hne, if_false, hl]
    · rw [List.map_cons, List.pairwise_cons]
      refine ⟨?_, hsorted⟩
      intro p hp
      obtain ⟨x, hx, hxp⟩ := List.mem_map.mp hp
      have := (hall x hx).1
      rw [hv, ← hxp]
      omega
    · intro x hx
      rcases List.mem_cons.mp hx with hxv | hxs
      · rw [hxv, hv]
        exact ⟨le_refl _, hin⟩
      · have := hall x hxs
        exact ⟨by omega, this.2⟩

/-! ## C16: the walk stays inside a well-formed buffer -/

/-- C16: when every record reached from offset 0 lies wholly inside the buffer
and has a `NextEntryOffset` that is 0 or a positive offset to the next such
record, `ProcessDirectoryChanges` returns (no read falls outside the buffer
and the iteration bound is not used up, whatever larger bound is taken), the
offsets it visits start at 0 and increase strictly, every visited record lies
inside the buffer, and the result is the same for every `bytesReturned`. -/
theorem ProcessDirectoryChanges_walk (env : Env) (s : State) (buffer : List Nat)
    (h : ChainFrom buffer 0) :
    ∃ (visits : List Visit) (s1 : State),
      (∀ bytesReturned,
        ProcessDirectoryChanges env s buffer bytesReturned = some (visits, s1)) ∧
      (∀ fuel, buffer.length < fuel →
        ProcessDirectoryChanges.loop env buffer fuel 0 s = some (visits, s1)) ∧
      (visits.map Visit.pos).Pairwise (fun a b => a < b) ∧
      (visits.map Visit.pos).head? = some 0 ∧
      (∀ v ∈ visits, recordInside buffer v.pos = true) := by
  obtain ⟨visits, s1, hloop, hsorted, hhead, hall⟩ :=
    ProcessDirectoryChanges.loop_of_chain env buffer 0 h s
  refine ⟨visits, s1, ?_, ?_, hsorted, hhead, fun v hv => (hall v hv).2⟩
  · intro _
    exact hloop (buffer.length + 1) (by omega)
  · intro fuel hfuel
    exact hloop fuel (by omega)

/-- The two-record buffer is a chain of records inside the buffer. -/
theorem twoRecordBuffer_chain : ChainFrom twoRecordBuffer 0 :=
  ChainFrom.next 0 24 (by decide) (by decide) (by decide)
    (ChainFrom.last 24 (by decide) (by decide))

/-- C16 on the two-record buffer: the walk returns and visits the offsets 0
and 24. -/
theorem ProcessDirectoryChanges_walk_witness :
    ∃ (visits : List Visit) (s1 : State),
      ProcessDirectoryChanges (listEnv [true] [] [] [ToolOutcome.mk true 0 0])
        (startState "C:\\PeaZip\\peazip.exe" []) twoRecordBuffer 0 = some (visits, s1) ∧
      (visits.map Visit.pos).Pairwise (fun a b => a < b) :=
  (ProcessDirectoryChanges_walk (listEnv [true] [] [] [ToolOutcome.mk true 0 0])
    (startState "C:\\PeaZip\\peazip.exe" []) twoRecordBuffer twoRecordBuffer_chain).imp
    (fun _ hv => hv.imp (fun _ hs => ⟨hs.1 0, hs.2.2.1⟩))

end AutoUnzip
